import Mathlib

/-!
# AssetVerse server: shallow embedding and verification

This file embeds the request handlers of the AssetVerse Express server
(`src/index.js`) as pure Lean functions over an explicit document store, and
proves properties of the asset request/approval/assignment/return workflow.

Modelling conventions:
* MongoDB collections are Lean lists in insertion order; `findOne` is
  `List.find?`, `updateOne` updates the first matching document, `insertOne`
  appends at the end and draws a fresh `_id` from the store's `nextId` counter.
* JavaScript numbers used as quantities and counters are modelled as `Int`
  (asset quantities) and `Nat` (employee counters, where the server clamps at
  zero with `Math.max(0, ·)` / `|| 0`).
* Date-valued fields (`createdAt`, `updatedAt`, timestamps) carry no
  workflow-relevant information and are omitted.
* The unique index on `employeeAffiliations (employeeEmail, companyName)`
  makes `insertOne` of a duplicate pair throw; the handler's `catch` turns
  this into a 500 `SERVER_ERROR` response.
* `verifyToken` middleware is modelled by passing the decoded token email to
  each protected handler; `GET /team-members` has no middleware, which the
  model reflects by an ignored raw `Authorization` header argument.
-/

namespace AssetVerse

/-- Drop leading and trailing whitespace from a character list. -/
def trimCharList (l : List Char) : List Char :=
  ((l.dropWhile Char.isWhitespace).reverse.dropWhile Char.isWhitespace).reverse

/-- `sanitize` from the server: trim a string input. -/
def sanitize (s : String) : String := ⟨trimCharList s.data⟩

/-- Split a character list on a separator character (semantics of
JavaScript `String.split` with a one-character separator). -/
def splitOnChar (c : Char) : List Char → List (List Char)
  | [] => [[]]
  | x :: xs =>
      match splitOnChar c xs with
      | [] => [[x]]
      | y :: ys => if x == c then [] :: y :: ys else (x :: y) :: ys

/-- Split a string on a separator character. -/
def splitString (c : Char) (s : String) : List String :=
  (splitOnChar c s.data).map (fun l => ⟨l⟩)

/-- JavaScript truthiness of an optional string field: absent and `""` are falsy. -/
def strTruthy : Option String → Bool
  | none => false
  | some s => s ≠ ""

/-- JavaScript `a || b` for an optional string `a` with default `b`. -/
def orElseStr (o : Option String) (d : String) : String :=
  match o with
  | some s => if s = "" then d else s
  | none => d

/-- The server's email regex `^[^\s@]+@[^\s@]+\.[^\s@]+$`: a nonempty
whitespace-free, `@`-free local part, an `@`, and a domain part with an
interior dot. -/
def isValidEmail (s : String) : Bool :=
  match splitOnChar '@' s.data with
  | [a, b] =>
      a.length != 0 && a.all (fun c => !c.isWhitespace) &&
      b.all (fun c => !c.isWhitespace) &&
      ((b.drop 1).dropLast.contains '.')
  | _ => false

/-- MongoDB `updateOne`: rewrite the first document matching the filter. -/
def updateFirst (p : α → Bool) (f : α → α) : List α → List α
  | [] => []
  | x :: xs => if p x then f x :: xs else x :: updateFirst p f xs

/-! ## Document types -/

/-- A `users` collection document (fields the handlers read or write). -/
structure UserDoc where
  name : String
  email : String
  password : String
  role : String
  companyName : String
  currentEmployees : Nat
  packageLimit : Nat
  deriving Repr, DecidableEq

/-- An `assets` collection document. -/
structure AssetDoc where
  id : Nat
  productName : String
  productImage : String
  productType : String
  productQuantity : Int
  availableQuantity : Int
  hrEmail : String
  companyName : String
  deriving Repr, DecidableEq

/-- A `requests` collection document. -/
structure RequestDoc where
  id : Nat
  assetId : Nat
  assetName : String
  assetImage : String
  assetType : String
  employeeEmail : String
  employeeName : String
  hrEmail : String
  companyName : String
  status : String
  note : String
  rejectionReason : String
  deriving Repr, DecidableEq

/-- An `assetassignments` collection document. -/
structure AssignmentDoc where
  id : Nat
  assetId : Nat
  productName : String
  productImage : String
  productType : String
  employeeEmail : String
  employeeName : String
  companyName : String
  status : String
  deriving Repr, DecidableEq

/-- An `employeeAffiliations` collection document. -/
structure AffiliationDoc where
  id : Nat
  employeeEmail : String
  employeeName : String
  hrEmail : String
  companyName : String
  status : String
  deriving Repr, DecidableEq

/-- The shared document store (the MongoDB database). -/
structure Store where
  users : List UserDoc
  assets : List AssetDoc
  requests : List RequestDoc
  assignments : List AssignmentDoc
  affiliations : List AffiliationDoc
  nextId : Nat
  deriving Repr, DecidableEq

/-! ## HTTP results -/

/-- Outcome of a handler: a JSON success response or a `sendError` response
`{error, code, statusCode}`. -/
inductive HttpResult (β : Type) where
  | ok (status : Nat) (body : β)
  | err (status : Nat) (message : String) (code : String)
  deriving Repr, DecidableEq

/-- The HTTP status of a result. -/
def HttpResult.httpStatus : HttpResult β → Nat
  | .ok st _ => st
  | .err st _ _ => st

/-- The stable error code of a result, if it is an error. -/
def HttpResult.errCode : HttpResult β → Option String
  | .ok _ _ => none
  | .err _ _ c => some c

/-- Whether the result is a success response. -/
def HttpResult.isOk : HttpResult β → Bool
  | .ok _ _ => true
  | .err _ _ _ => false

/-- An error triple as produced by `sendError`. -/
structure ApiErr where
  status : Nat
  message : String
  code : String
  deriving Repr, DecidableEq

/-- Inject a `sendError` triple into a result. -/
def HttpResult.ofErr (e : ApiErr) : HttpResult β := .err e.status e.message e.code

/-- The `verifyHR` middleware: 401 when the decoded email is missing, 403 when
the email does not resolve to a stored user with role `hr`. -/
def verifyHRCheck (s : Store) (tokenEmail : String) : Option ApiErr :=
  if tokenEmail = "" then some ⟨401, "Unauthorized", "UNAUTHORIZED"⟩
  else
    match s.users.find? (fun u => u.email == tokenEmail) with
    | some u => if u.role == "hr" then none else some ⟨403, "Forbidden", "FORBIDDEN"⟩
    | none => some ⟨403, "Forbidden", "FORBIDDEN"⟩

/-! ## User endpoints -/

/-- A user document as serialised in responses: `delete user.password`. -/
structure UserResp where
  name : String
  email : String
  role : String
  companyName : String
  currentEmployees : Nat
  packageLimit : Nat
  deriving Repr, DecidableEq

/-- Strip the password field for a response. -/
def UserDoc.toResp (u : UserDoc) : UserResp :=
  ⟨u.name, u.email, u.role, u.companyName, u.currentEmployees, u.packageLimit⟩

/-- `GET /user/:email`. -/
def getUser (s : Store) (emailParam : String) : HttpResult UserResp :=
  let email := sanitize emailParam
  if !isValidEmail email then .err 400 "Invalid email format" "INVALID_EMAIL"
  else
    match s.users.find? (fun u => u.email == email) with
    | none => .err 404 "User not found" "USER_NOT_FOUND"
    | some u => .ok 200 u.toResp

/-- `GET /users-by-emails` (after `verifyToken`). -/
def getUsersByEmails (s : Store) (emailsQuery : Option String) : HttpResult (List UserResp) :=
  if !strTruthy emailsQuery then .err 400 "emails query parameter required" "MISSING_EMAILS"
  else
    let emailList := ((splitString ',' (emailsQuery.getD "")).map sanitize).filter isValidEmail
    if emailList.length = 0 then .err 400 "No valid emails provided" "INVALID_EMAILS"
    else .ok 200 ((s.users.filter (fun u => emailList.contains u.email)).map UserDoc.toResp)

/-- Request body of `POST /users`. -/
structure CreateUserBody where
  name : String
  email : String
  password : Option String
  role : String
  companyName : Option String
  packageLimit : Nat
  deriving Repr, DecidableEq

/-- `POST /users`: create an account; the 201 body is the new document with
`password: undefined` plus its inserted `_id`. -/
def postUsers (s : Store) (b : CreateUserBody) : HttpResult (Nat × UserResp) × Store :=
  if b.name = "" ∨ b.email = "" ∨ b.role = "" then
    (.err 400 "Missing required fields: name, email, role" "MISSING_FIELDS", s)
  else if !isValidEmail b.email then (.err 400 "Invalid email format" "INVALID_EMAIL", s)
  else if ¬(b.role = "hr" ∨ b.role = "employee") then
    (.err 400 "Role must be \"hr\" or \"employee\"" "INVALID_ROLE", s)
  else if b.role = "hr" ∧ ¬strTruthy b.companyName then
    (.err 400 "Company name is required for HR" "MISSING_COMPANY", s)
  else
    match s.users.find? (fun u => u.email == b.email) with
    | some _ => (.err 400 "Email already exists" "EMAIL_EXISTS", s)
    | none =>
        let newUser : UserDoc :=
          { name := sanitize b.name
            email := sanitize b.email
            password := b.password.getD ""
            role := b.role
            companyName := if b.role = "hr" then sanitize (b.companyName.getD "") else ""
            currentEmployees := 0
            packageLimit := if b.role = "hr" then b.packageLimit else 0 }
        (.ok 201 (s.nextId, newUser.toResp),
          { s with users := s.users ++ [newUser], nextId := s.nextId + 1 })

/-- Request body of `PUT /users/:email` (modelled fields). -/
structure PutUserBody where
  name : Option String
  companyName : Option String
  currentEmployees : Option Nat
  deriving Repr, DecidableEq

/-- The `$set` document built by `PUT /users/:email`. -/
def applyPutUser (b : PutUserBody) (u : UserDoc) : UserDoc :=
  let u1 := if strTruthy b.name then { u with name := sanitize (b.name.getD "") } else u
  let u2 :=
    if strTruthy b.companyName then { u1 with companyName := sanitize (b.companyName.getD "") }
    else u1
  match b.currentEmployees with
  | some n => { u2 with currentEmployees := n }
  | none => u2

/-- `PUT /users/:email` (after `verifyToken`): self-service profile update;
the 200 body is the updated document with the password removed. -/
def putUser (s : Store) (tokenEmail : String) (emailParam : String) (b : PutUserBody) :
    HttpResult (Option UserResp) × Store :=
  let email := sanitize emailParam
  if !isValidEmail email then (.err 400 "Invalid email format" "INVALID_EMAIL", s)
  else if tokenEmail ≠ email then (.err 403 "Forbidden" "FORBIDDEN", s)
  else
    match s.users.find? (fun u => u.email == email) with
    | none => (.err 404 "User not found" "USER_NOT_FOUND", s)
    | some _ =>
        let s' := { s with users := updateFirst (fun u => u.email == email) (applyPutUser b) s.users }
        (.ok 200 ((s'.users.find? (fun u => u.email == email)).map UserDoc.toResp), s')

/-- The filter used by `GET /team-members`. -/
def teamMemberMatch (companyName role : Option String) (u : UserDoc) : Bool :=
  (if strTruthy companyName then u.companyName == sanitize (companyName.getD "") else true) &&
  (if strTruthy role then u.role == role.getD "" else true)

/-- `GET /team-members`: no middleware is mounted on this route, so the raw
`Authorization` header (if any) is never inspected. -/
def getTeamMembers (authHeader : Option String) (s : Store) (companyName role : Option String) :
    HttpResult (List UserResp) :=
  .ok 200 ((s.users.filter (teamMemberMatch companyName role)).map UserDoc.toResp)

/-! ## Asset endpoints -/

/-- Request body of `POST /assets`. -/
structure CreateAssetBody where
  productName : String
  productImage : String
  productType : String
  productQuantity : Int
  hrEmail : Option String
  companyName : Option String
  deriving Repr, DecidableEq

/-- `POST /assets` (after `verifyToken`, `verifyHR`): create an asset with
`availableQuantity = productQuantity`. -/
def createAsset (s : Store) (tokenEmail : String) (b : CreateAssetBody) :
    HttpResult AssetDoc × Store :=
  match verifyHRCheck s tokenEmail with
  | some e => (HttpResult.ofErr e, s)
  | none =>
    if b.productName = "" ∨ b.productImage = "" ∨ b.productType = "" ∨ b.productQuantity = 0 then
      (.err 400 "Missing required fields" "MISSING_FIELDS", s)
    else if ¬(b.productType = "Returnable" ∨ b.productType = "Non-returnable") then
      (.err 400 "Product type must be \"Returnable\" or \"Non-returnable\"" "INVALID_TYPE", s)
    else if b.productQuantity ≤ 0 then
      (.err 400 "Product quantity must be greater than 0" "INVALID_QUANTITY", s)
    else if tokenEmail = "" ∨ !isValidEmail tokenEmail then
      (.err 401 "Unauthorized" "UNAUTHORIZED", s)
    else if strTruthy b.hrEmail ∧ b.hrEmail ≠ some tokenEmail then
      (.err 403 "Forbidden" "FORBIDDEN", s)
    else
      match s.users.find? (fun u => u.email == tokenEmail) with
      | none => (.err 404 "HR user not found" "HR_NOT_FOUND", s)
      | some hr =>
          if hr.role ≠ "hr" then (.err 403 "User is not an HR" "NOT_HR", s)
          else
            let resolvedCompanyName :=
              if hr.companyName ≠ "" then hr.companyName else b.companyName.getD ""
            if resolvedCompanyName = "" then
              (.err 400 "Company name is required for HR" "MISSING_COMPANY", s)
            else
              let asset : AssetDoc :=
                { id := s.nextId
                  productName := sanitize b.productName
                  productImage := b.productImage
                  productType := b.productType
                  productQuantity := b.productQuantity
                  availableQuantity := b.productQuantity
                  hrEmail := tokenEmail
                  companyName := sanitize resolvedCompanyName }
              (.ok 201 asset, { s with assets := s.assets ++ [asset], nextId := s.nextId + 1 })

/-- Number of live assignments of an asset
(`countDocuments({assetId, status: 'assigned'})`). -/
def countAssigned (l : List AssignmentDoc) (aid : Nat) : Nat :=
  l.countP (fun g => g.assetId == aid && g.status == "assigned")

/-- Request body of `PUT /assets/:assetId` (modelled fields). -/
structure UpdateAssetBody where
  productName : Option String
  productType : Option String
  productQuantity : Option Int
  deriving Repr, DecidableEq

/-- The optional name/type parts of the `$set` document of `PUT /assets/:assetId`. -/
def applyAssetMeta (b : UpdateAssetBody) (a : AssetDoc) : AssetDoc :=
  let a1 := if strTruthy b.productName then { a with productName := sanitize (b.productName.getD "") } else a
  if strTruthy b.productType then { a1 with productType := b.productType.getD "" } else a1

/-- `PUT /assets/:assetId` (after `verifyToken`, `verifyHR`): update asset
fields; a quantity change is validated against the live assignment count and
shifts `availableQuantity` by the same difference, clamped at zero. -/
def updateAsset (s : Store) (tokenEmail : String) (assetId : Nat) (b : UpdateAssetBody) :
    HttpResult (Option AssetDoc) × Store :=
  match verifyHRCheck s tokenEmail with
  | some e => (HttpResult.ofErr e, s)
  | none =>
    match s.assets.find? (fun a => a.id == assetId) with
    | none => (.err 404 "Asset not found" "ASSET_NOT_FOUND", s)
    | some asset =>
        match b.productQuantity with
        | some pq =>
            if 0 < pq then
              let assignedN := countAssigned s.assignments assetId
              if pq < (assignedN : Int) then
                (.err 400 ("Cannot reduce quantity below assigned count (" ++
                  toString assignedN ++ ")") "INVALID_QUANTITY", s)
              else
                let newAvailable := asset.availableQuantity + (pq - asset.productQuantity)
                let assets' := updateFirst (fun a => a.id == assetId)
                  (fun a0 => applyAssetMeta b
                    { a0 with productQuantity := pq, availableQuantity := max 0 newAvailable })
                  s.assets
                let s' := { s with assets := assets' }
                (.ok 200 (s'.assets.find? (fun a => a.id == assetId)), s')
            else
              let assets' := updateFirst (fun a => a.id == assetId) (applyAssetMeta b) s.assets
              let s' := { s with assets := assets' }
              (.ok 200 (s'.assets.find? (fun a => a.id == assetId)), s')
        | none =>
            let assets' := updateFirst (fun a => a.id == assetId) (applyAssetMeta b) s.assets
            let s' := { s with assets := assets' }
            (.ok 200 (s'.assets.find? (fun a => a.id == assetId)), s')

/-! ## Request endpoints -/

/-- Request body of `POST /requests`. -/
structure CreateRequestBody where
  assetId : Nat
  assetName : Option String
  assetImage : Option String
  assetType : Option String
  employeeEmail : String
  employeeName : String
  hrEmail : String
  companyName : String
  note : Option String
  deriving Repr, DecidableEq

/-- `POST /requests` (after `verifyToken`): an employee requests an asset;
requires the asset to exist with available quantity and rejects a duplicate
pending request from the same employee for the same asset. -/
def createRequest (s : Store) (tokenEmail : String) (b : CreateRequestBody) :
    HttpResult RequestDoc × Store :=
  if b.employeeEmail = "" ∨ b.employeeName = "" ∨ b.hrEmail = "" ∨ b.companyName = "" then
    (.err 400 "Missing required fields" "MISSING_FIELDS", s)
  else if tokenEmail ≠ b.employeeEmail then (.err 403 "Forbidden" "FORBIDDEN", s)
  else if ¬(isValidEmail b.employeeEmail ∧ isValidEmail b.hrEmail) then
    (.err 400 "Invalid email format" "INVALID_EMAIL", s)
  else
    match s.assets.find? (fun a => a.id == b.assetId) with
    | none => (.err 404 "Asset not found" "ASSET_NOT_FOUND", s)
    | some asset =>
        if asset.availableQuantity ≤ 0 then (.err 400 "Asset not available" "NO_AVAILABLE_QUANTITY", s)
        else if (s.requests.find? (fun r =>
            r.assetId == b.assetId && r.employeeEmail == b.employeeEmail &&
            r.status == "pending")).isSome then
          (.err 400 "Employee already has a pending request for this asset" "DUPLICATE_REQUEST", s)
        else
          let newRequest : RequestDoc :=
            { id := s.nextId
              assetId := b.assetId
              assetName := orElseStr b.assetName asset.productName
              assetImage := orElseStr b.assetImage asset.productImage
              assetType := orElseStr b.assetType asset.productType
              employeeEmail := b.employeeEmail
              employeeName := sanitize b.employeeName
              hrEmail := b.hrEmail
              companyName := sanitize b.companyName
              status := "pending"
              note := sanitize (b.note.getD "")
              rejectionReason := "" }
          (.ok 201 newRequest, { s with requests := s.requests ++ [newRequest], nextId := s.nextId + 1 })

/-- Approval tail of `PATCH /requests/:requestId` once the pending request,
the available asset and the request's HR user have been fetched: affiliation
bookkeeping, assignment creation, quantity decrement, request update. -/
def approveCore (s : Store) (requestId : Nat) (request : RequestDoc) (asset : AssetDoc)
    (hrUser : UserDoc) : HttpResult (Option RequestDoc) × Store :=
  let hasActive := (s.affiliations.find? (fun f =>
    f.employeeEmail == request.employeeEmail && f.companyName == request.companyName &&
    f.status == "active")).isSome
  let afterAffiliation : HttpResult (Option RequestDoc) ⊕ Store :=
    if hasActive then
      -- `updateOne(affiliationFilter, {$set: {updatedAt}})`: no modelled field changes
      .inr s
    else
      let packageLimit := hrUser.packageLimit
      let currentEmployees := hrUser.currentEmployees
      if 0 < packageLimit ∧ packageLimit ≤ currentEmployees then
        .inl (.err 403 "Package limit reached" "PACKAGE_LIMIT")
      else if s.affiliations.any (fun f =>
          f.employeeEmail == request.employeeEmail &&
          f.companyName == sanitize request.companyName) then
        -- the unique index on (employeeEmail, companyName) rejects the insert;
        -- the handler's catch reports the store error as a 500
        .inl (.err 500 "E11000 duplicate key error" "SERVER_ERROR")
      else
        let newAffiliation : AffiliationDoc :=
          { id := s.nextId
            employeeEmail := request.employeeEmail
            employeeName := sanitize request.employeeName
            hrEmail := request.hrEmail
            companyName := sanitize request.companyName
            status := "active" }
        let users' := updateFirst (fun u => u.email == request.hrEmail)
          (fun u => { u with currentEmployees := currentEmployees + 1 }) s.users
        .inr { s with
          affiliations := s.affiliations ++ [newAffiliation]
          users := users'
          nextId := s.nextId + 1 }
  match afterAffiliation with
  | .inl e => (e, s)
  | .inr s1 =>
      let assignment : AssignmentDoc :=
        { id := s1.nextId
          assetId := request.assetId
          productName := request.assetName
          productImage := request.assetImage
          productType := asset.productType
          employeeEmail := request.employeeEmail
          employeeName := request.employeeName
          companyName := request.companyName
          status := "assigned" }
      let s2 := { s1 with assignments := s1.assignments ++ [assignment], nextId := s1.nextId + 1 }
      let assets3 := updateFirst (fun a => a.id == request.assetId)
        (fun a => { a with availableQuantity := asset.availableQuantity - 1 }) s2.assets
      let s3 := { s2 with assets := assets3 }
      let requests4 := updateFirst (fun r => r.id == requestId)
        (fun r => { r with status := "approved" }) s3.requests
      let s4 := { s3 with requests := requests4 }
      (.ok 200 (s4.requests.find? (fun r => r.id == requestId)), s4)

/-- `PATCH /requests/:requestId` (after `verifyToken`, `verifyHR`): approve or
reject a pending request. -/
def patchRequest (s : Store) (tokenEmail : String) (requestId : Nat) (status : String)
    (rejectionReason : Option String) : HttpResult (Option RequestDoc) × Store :=
  match verifyHRCheck s tokenEmail with
  | some e => (HttpResult.ofErr e, s)
  | none =>
    if ¬(status = "approved" ∨ status = "rejected") then
      (.err 400 "Status must be \"approved\" or \"rejected\"" "INVALID_STATUS", s)
    else
      match s.requests.find? (fun r => r.id == requestId) with
      | none => (.err 404 "Request not found" "REQUEST_NOT_FOUND", s)
      | some request =>
          if request.status ≠ "pending" then
            (.err 400 "Only pending requests can be updated" "INVALID_STATE", s)
          else if status = "approved" then
            match s.assets.find? (fun a => a.id == request.assetId) with
            | none => (.err 400 "Asset no longer available" "NO_AVAILABLE_QUANTITY", s)
            | some asset =>
                if asset.availableQuantity ≤ 0 then
                  (.err 400 "Asset no longer available" "NO_AVAILABLE_QUANTITY", s)
                else
                  match s.users.find? (fun u => u.email == request.hrEmail) with
                  | none => (.err 404 "HR user not found" "HR_NOT_FOUND", s)
                  | some hrUser => approveCore s requestId request asset hrUser
          else
            let requests' := updateFirst (fun r => r.id == requestId)
              (fun r => { r with status := "rejected", rejectionReason := rejectionReason.getD "" })
              s.requests
            let s' := { s with requests := requests' }
            (.ok 200 (s'.requests.find? (fun r => r.id == requestId)), s')

/-! ## Assignment and affiliation endpoints -/

/-- `PATCH /assigned-assets/:assignmentId/return` (after `verifyToken`):
return an assigned asset to inventory. -/
def returnAsset (s : Store) (tokenEmail : String) (assignmentId : Nat)
    (employeeEmail : Option String) : HttpResult (Option AssignmentDoc) × Store :=
  if !strTruthy employeeEmail then (.err 400 "Employee email required" "MISSING_EMAIL", s)
  else
    let bodyEmail := employeeEmail.getD ""
    match s.assignments.find? (fun g => g.id == assignmentId) with
    | none => (.err 404 "Assignment not found" "ASSIGNMENT_NOT_FOUND", s)
    | some assignment =>
        if assignment.status ≠ "assigned" then
          (.err 400 "Only assigned assets can be returned" "INVALID_STATE", s)
        else if tokenEmail ≠ bodyEmail ∨ assignment.employeeEmail ≠ bodyEmail then
          (.err 403 "You can only return your own assets" "FORBIDDEN", s)
        else
          match s.assets.find? (fun a => a.id == assignment.assetId) with
          | none => (.err 404 "Asset not found" "ASSET_NOT_FOUND", s)
          | some asset =>
              let assets1 := updateFirst (fun a => a.id == assignment.assetId)
                (fun a => { a with availableQuantity := asset.availableQuantity + 1 }) s.assets
              let s1 := { s with assets := assets1 }
              let assignments2 := updateFirst (fun g => g.id == assignmentId)
                (fun g => { g with status := "returned" }) s1.assignments
              let s2 := { s1 with assignments := assignments2 }
              (.ok 200 (s2.assignments.find? (fun g => g.id == assignmentId)), s2)

/-- Request body of `POST /assign-asset`. -/
structure AssignBody where
  assetId : Nat
  productName : Option String
  productImage : Option String
  productType : Option String
  employeeEmail : String
  employeeName : String
  companyName : String
  deriving Repr, DecidableEq

/-- `POST /assign-asset` (after `verifyToken`, `verifyHR`): directly assign an
asset to an actively affiliated employee. -/
def assignAsset (s : Store) (tokenEmail : String) (b : AssignBody) :
    HttpResult AssignmentDoc × Store :=
  match verifyHRCheck s tokenEmail with
  | some e => (HttpResult.ofErr e, s)
  | none =>
    if b.employeeEmail = "" ∨ b.employeeName = "" ∨ b.companyName = "" then
      (.err 400 "Missing required fields" "MISSING_FIELDS", s)
    else if !isValidEmail b.employeeEmail then (.err 400 "Invalid email format" "INVALID_EMAIL", s)
    else if !(s.affiliations.find? (fun f =>
        f.employeeEmail == b.employeeEmail && f.companyName == sanitize b.companyName &&
        f.status == "active")).isSome then
      (.err 403 "Employee is not affiliated with this company" "NOT_AFFILIATED", s)
    else
      match s.assets.find? (fun a => a.id == b.assetId) with
      | none => (.err 404 "Asset not found" "ASSET_NOT_FOUND", s)
      | some asset =>
          if asset.availableQuantity ≤ 0 then (.err 400 "Asset not available" "NO_AVAILABLE_QUANTITY", s)
          else if (s.assignments.find? (fun g =>
              g.assetId == b.assetId && g.employeeEmail == b.employeeEmail &&
              g.status == "assigned")).isSome then
            (.err 400 "Employee already has this asset assigned" "ALREADY_ASSIGNED", s)
          else
            let assignment : AssignmentDoc :=
              { id := s.nextId
                assetId := b.assetId
                productName := orElseStr b.productName asset.productName
                productImage := orElseStr b.productImage asset.productImage
                productType := orElseStr b.productType asset.productType
                employeeEmail := b.employeeEmail
                employeeName := sanitize b.employeeName
                companyName := sanitize b.companyName
                status := "assigned" }
            let s1 := { s with assignments := s.assignments ++ [assignment], nextId := s.nextId + 1 }
            let assets2 := updateFirst (fun a => a.id == b.assetId)
              (fun a => { a with availableQuantity := asset.availableQuantity - 1 }) s1.assets
            let s2 := { s1 with assets := assets2 }
            (.ok 201 assignment, s2)

/-- One iteration of the `PATCH /affiliations/remove` loop: mark the snapshot
assignment returned and `$inc` the linked asset's `availableQuantity` by 1. -/
def returnStep (st : Store) (g : AssignmentDoc) : Store :=
  let assignments1 := updateFirst (fun x => x.id == g.id)
    (fun x => { x with status := "returned" }) st.assignments
  let st1 := { st with assignments := assignments1 }
  let assets2 := updateFirst (fun a => a.id == g.assetId)
    (fun a => { a with availableQuantity := a.availableQuantity + 1 }) st1.assets
  { st1 with assets := assets2 }

/-- Request body of `PATCH /affiliations/remove`. -/
structure RemoveAffiliationBody where
  employeeEmail : String
  companyName : String
  deriving Repr, DecidableEq

/-- `PATCH /affiliations/remove` (after `verifyToken`, `verifyHR`): return all
of the employee's assigned assets in the company, deactivate the affiliation
and decrement the HR's employee counter (floored at zero). -/
def removeAffiliation (s : Store) (tokenEmail : String) (b : RemoveAffiliationBody) :
    HttpResult Nat × Store :=
  match verifyHRCheck s tokenEmail with
  | some e => (HttpResult.ofErr e, s)
  | none =>
    if b.employeeEmail = "" ∨ b.companyName = "" then
      (.err 400 "employeeEmail and companyName required" "MISSING_FIELDS", s)
    else
      match s.affiliations.find? (fun f =>
          f.employeeEmail == sanitize b.employeeEmail &&
          f.companyName == sanitize b.companyName && f.status == "active") with
      | none => (.err 404 "Affiliation not found" "AFFILIATION_NOT_FOUND", s)
      | some affiliation =>
          let snapshot := s.assignments.filter (fun g =>
            g.employeeEmail == sanitize b.employeeEmail &&
            g.companyName == sanitize b.companyName && g.status == "assigned")
          let s1 := snapshot.foldl returnStep s
          let affiliations2 := updateFirst (fun f => f.id == affiliation.id)
            (fun f => { f with status := "inactive" }) s1.affiliations
          let s2 := { s1 with affiliations := affiliations2 }
          let s3 :=
            if affiliation.hrEmail ≠ "" then
              let currentEmployees :=
                ((s2.users.find? (fun u => u.email == affiliation.hrEmail)).map
                  (fun u => u.currentEmployees)).getD 0
              let users3 := updateFirst (fun u => u.email == affiliation.hrEmail)
                (fun u => { u with currentEmployees := currentEmployees - 1 }) s2.users
              { s2 with users := users3 }
            else s2
          (.ok 200 snapshot.length, s3)

/-! ## Operation sequences -/

/-- One state-mutating API call of the asset workflow, with its caller's
decoded token email and its request data. -/
inductive Op where
  | createAsset (tokenEmail : String) (body : CreateAssetBody)
  | updateAsset (tokenEmail : String) (assetId : Nat) (body : UpdateAssetBody)
  | createRequest (tokenEmail : String) (body : CreateRequestBody)
  | patchRequest (tokenEmail : String) (requestId : Nat) (status : String)
      (rejectionReason : Option String)
  | assignAsset (tokenEmail : String) (body : AssignBody)
  | returnAsset (tokenEmail : String) (assignmentId : Nat) (employeeEmail : Option String)
  | removeAffiliation (tokenEmail : String) (body : RemoveAffiliationBody)
  deriving Repr, DecidableEq

/-- The store after one API call (the handler's post-state, whatever its
HTTP outcome). -/
def applyOp (s : Store) (op : Op) : Store :=
  match op with
  | .createAsset t b => (createAsset s t b).2
  | .updateAsset t aid b => (updateAsset s t aid b).2
  | .createRequest t b => (createRequest s t b).2
  | .patchRequest t rid st r => (patchRequest s t rid st r).2
  | .assignAsset t b => (assignAsset s t b).2
  | .returnAsset t gid e => (returnAsset s t gid e).2
  | .removeAffiliation t b => (removeAffiliation s t b).2

/-- The store after a sequence of API calls. -/
def runOps (s : Store) (ops : List Op) : Store := ops.foldl applyOp s

/-! ## Invariants -/

/-- Quantity accounting for assets against a list of assignments: every
asset's `availableQuantity` is its `productQuantity` minus its live
assignment count, and is never negative. -/
def assetsOkL (assets : List AssetDoc) (assignments : List AssignmentDoc) : Prop :=
  ∀ a ∈ assets, a.availableQuantity = a.productQuantity - (countAssigned assignments a.id : Int) ∧
    0 ≤ a.availableQuantity

/-- Quantity accounting for a store. -/
def AssetsOk (s : Store) : Prop := assetsOkL s.assets s.assignments

/-- Well-formedness of generated ids: `_id`s are unique per collection and
below the fresh-id counter, and assignments reference already-generated
asset ids. -/
def IdsOk (s : Store) : Prop :=
  (s.assets.map AssetDoc.id).Nodup ∧ (s.requests.map RequestDoc.id).Nodup ∧
  (s.assignments.map AssignmentDoc.id).Nodup ∧ (s.affiliations.map AffiliationDoc.id).Nodup ∧
  (∀ a ∈ s.assets, a.id < s.nextId) ∧ (∀ r ∈ s.requests, r.id < s.nextId) ∧
  (∀ g ∈ s.assignments, g.id < s.nextId) ∧ (∀ f ∈ s.affiliations, f.id < s.nextId) ∧
  (∀ g ∈ s.assignments, g.assetId < s.nextId)

/-- Two request documents are not simultaneously pending for the same
(asset, employee) pair. -/
def NotBothPending (r1 r2 : RequestDoc) : Prop :=
  ¬(r1.status = "pending" ∧ r2.status = "pending" ∧ r1.assetId = r2.assetId ∧
    r1.employeeEmail = r2.employeeEmail)

instance : DecidableRel NotBothPending := fun r1 r2 => by
  unfold NotBothPending; infer_instance

/-- No employee holds two simultaneous pending requests for one asset. -/
def NoDupPending (s : Store) : Prop := s.requests.Pairwise NotBothPending

/-- The store invariant maintained by every workflow operation. -/
def StoreInv (s : Store) : Prop := IdsOk s ∧ AssetsOk s ∧ NoDupPending s

instance storeInvDec (s : Store) : Decidable (StoreInv s) := by
  unfold StoreInv IdsOk AssetsOk assetsOkL NoDupPending
  infer_instance

/-- The status of the request with the given id, if stored. -/
def reqStatusOf (s : Store) (rid : Nat) : Option String :=
  (s.requests.find? (fun r => r.id == rid)).map RequestDoc.status

/-! ## Password-indifference relation (for the no-password-leak property) -/

/-- Two user documents agree on everything a response may contain (that is,
on everything except the password). -/
def pwSim (u v : UserDoc) : Prop := u.toResp = v.toResp

/-- Two user collections agree except possibly on password values. -/
def UsersPwEquiv (l1 l2 : List UserDoc) : Prop := List.Forall₂ pwSim l1 l2

/-- Two stores agree except possibly on users' password values. -/
def StorePwEquiv (s1 s2 : Store) : Prop :=
  UsersPwEquiv s1.users s2.users ∧ s1.assets = s2.assets ∧ s1.requests = s2.requests ∧
  s1.assignments = s2.assignments ∧ s1.affiliations = s2.affiliations ∧ s1.nextId = s2.nextId

/-! ## Concrete fixtures for witnesses and counterexamples -/

/-- An HR user owning company C. -/
def hrW : UserDoc :=
  { name := "HR", email := "hr@ex.com", password := "pw", role := "hr", companyName := "C",
    currentEmployees := 0, packageLimit := 0 }

/-- The same HR user at a full package: `currentEmployees = packageLimit = 5`. -/
def hrLimW : UserDoc :=
  { name := "HR", email := "hr@ex.com", password := "pw", role := "hr", companyName := "C",
    currentEmployees := 5, packageLimit := 5 }

/-- A second HR user owning a different company. -/
def hr2W : UserDoc :=
  { name := "HR2", email := "hr2@other.com", password := "pw2", role := "hr", companyName := "D",
    currentEmployees := 0, packageLimit := 0 }

/-- An employee user. -/
def empW : UserDoc :=
  { name := "Emp", email := "emp@ex.com", password := "pw", role := "employee", companyName := "",
    currentEmployees := 0, packageLimit := 0 }

/-- The employee user with a different stored password. -/
def empWpw : UserDoc :=
  { name := "Emp", email := "emp@ex.com", password := "hunter2", role := "employee",
    companyName := "", currentEmployees := 0, packageLimit := 0 }

/-- An asset of company C with three units, all available. -/
def assetW : AssetDoc :=
  { id := 1, productName := "Laptop", productImage := "img", productType := "Returnable",
    productQuantity := 3, availableQuantity := 3, hrEmail := "hr@ex.com", companyName := "C" }

/-- The same asset with no unit left. -/
def assetZeroW : AssetDoc :=
  { id := 1, productName := "Laptop", productImage := "img", productType := "Returnable",
    productQuantity := 3, availableQuantity := 0, hrEmail := "hr@ex.com", companyName := "C" }

/-- A pending request by the employee for asset 1. -/
def reqW : RequestDoc :=
  { id := 2, assetId := 1, assetName := "Laptop", assetImage := "img", assetType := "Returnable",
    employeeEmail := "emp@ex.com", employeeName := "Emp", hrEmail := "hr@ex.com",
    companyName := "C", status := "pending", note := "", rejectionReason := "" }

/-- The same request already approved. -/
def reqApprovedW : RequestDoc :=
  { id := 2, assetId := 1, assetName := "Laptop", assetImage := "img", assetType := "Returnable",
    employeeEmail := "emp@ex.com", employeeName := "Emp", hrEmail := "hr@ex.com",
    companyName := "C", status := "approved", note := "", rejectionReason := "" }

/-- A live assignment of asset 1 to the employee. -/
def asgW : AssignmentDoc :=
  { id := 3, assetId := 1, productName := "Laptop", productImage := "img",
    productType := "Returnable", employeeEmail := "emp@ex.com", employeeName := "Emp",
    companyName := "C", status := "assigned" }

/-- The same assignment already returned. -/
def asgReturnedW : AssignmentDoc :=
  { id := 3, assetId := 1, productName := "Laptop", productImage := "img",
    productType := "Returnable", employeeEmail := "emp@ex.com", employeeName := "Emp",
    companyName := "C", status := "returned" }

/-- An inactive affiliation of the employee with company C (left over by
`PATCH /affiliations/remove`). -/
def affInactiveW : AffiliationDoc :=
  { id := 4, employeeEmail := "emp@ex.com", employeeName := "Emp", hrEmail := "hr@ex.com",
    companyName := "C", status := "inactive" }

/-- Initial store for the freshly-created-asset scenario: two accounts, no
other documents. -/
def c1Store : Store := ⟨[hrW, empW], [], [], [], [], 10⟩

/-- A concrete workflow: create an asset, request it, approve the request. -/
def c1Ops : List Op :=
  [ .createAsset "hr@ex.com" ⟨"Laptop", "img", "Returnable", 3, none, none⟩,
    .createRequest "emp@ex.com" ⟨10, none, none, none, "emp@ex.com", "Emp", "hr@ex.com", "C", none⟩,
    .patchRequest "hr@ex.com" 11 "approved" none ]

/-- Store with a pending request whose asset has no available unit. -/
def c2Store : Store := ⟨[hrW], [assetZeroW], [reqW], [], [], 10⟩

/-- Store with an already-approved request. -/
def c3Store : Store := ⟨[hrW], [assetW], [reqApprovedW], [], [], 10⟩

/-- Store with an already-returned assignment of the employee. -/
def c4Store : Store := ⟨[hrW, empW], [assetW], [], [asgReturnedW], [], 10⟩

/-- Store with a live assignment of the employee. -/
def c4LiveStore : Store := ⟨[hrW, empW], [assetW], [], [asgW], [], 10⟩

/-- Store with a pending request of company C and a second HR of another
company. -/
def c5Store : Store := ⟨[hrW, hr2W], [assetW], [reqW], [], [], 10⟩

/-- Store with a pending request and a leftover inactive affiliation for the
same (employee, company) pair. -/
def c6Store : Store := ⟨[hrW], [assetW], [reqW], [], [affInactiveW], 10⟩

/-- Store with a pending request whose HR is at their package limit. -/
def c7Store : Store := ⟨[hrLimW], [assetW], [reqW], [], [], 10⟩

/-- Store with an available asset and an existing pending request. -/
def c8Store : Store := ⟨[hrW, empW], [assetW], [reqW], [], [], 10⟩

/-- Request body duplicating the stored pending request. -/
def c8Body : CreateRequestBody :=
  ⟨1, none, none, none, "emp@ex.com", "Emp", "hr@ex.com", "C", none⟩

/-- Store whose only difference from `c10StoreB` is the employee's stored
password. -/
def c10StoreA : Store := ⟨[hrW, empW], [], [], [], [], 10⟩

/-- Store whose only difference from `c10StoreA` is the employee's stored
password. -/
def c10StoreB : Store := ⟨[hrW, empWpw], [], [], [], [], 10⟩

/-! # Theorems

## List toolkit for `updateFirst`, `find?` and `Pairwise` -/

theorem mem_updateFirst {p : α → Bool} {f : α → α} {l : List α} {y : α}
    (h : y ∈ updateFirst p f l) : y ∈ l ∨ ∃ x, x ∈ l ∧ p x = true ∧ y = f x := by
  induction l with
  | nil => simp [updateFirst] at h
  | cons a l ih =>
      simp only [updateFirst] at h
      by_cases hpa : p a = true
      · rw [if_pos hpa] at h
        rcases List.mem_cons.mp h with h1 | h1
        · exact Or.inr ⟨a, List.mem_cons_self a l, hpa, h1⟩
        · exact Or.inl (List.mem_cons_of_mem a h1)
      · rw [if_neg hpa] at h
        rcases List.mem_cons.mp h with h1 | h1
        · exact Or.inl (h1 ▸ List.mem_cons_self a l)
        · rcases ih h1 with h2 | ⟨x, hx, hpx, hy⟩
          · exact Or.inl (List.mem_cons_of_mem a h2)
          · exact Or.inr ⟨x, List.mem_cons_of_mem a hx, hpx, hy⟩

theorem mem_updateFirst_of_not {p : α → Bool} {f : α → α} {l : List α} {y : α}
    (h : y ∈ l) (hp : p y = false) : y ∈ updateFirst p f l := by
  induction l with
  | nil => simpa using h
  | cons a l ih =>
      simp only [updateFirst]
      rcases List.mem_cons.mp h with rfl | h1
      · rw [if_neg (by simp [hp])]
        exact List.mem_cons_self _ _
      · by_cases hpa : p a = true
        · rw [if_pos hpa]
          exact List.mem_cons_of_mem _ h1
        · rw [if_neg hpa]
          exact List.mem_cons_of_mem _ (ih h1)

theorem updateFirst_of_forall_not {p : α → Bool} {f : α → α} {l : List α}
    (h : ∀ x ∈ l, p x = false) : updateFirst p f l = l := by
  induction l with
  | nil => rfl
  | cons a l ih =>
      simp only [updateFirst]
      rw [if_neg (by simp [h a (List.mem_cons_self a l)])]
      rw [ih (fun x hx => h x (List.mem_cons_of_mem a hx))]

theorem find?_decomp {p : α → Bool} {l : List α} {x : α} (h : l.find? p = some x) :
    ∃ l₁ l₂, l = l₁ ++ x :: l₂ ∧ ∀ y ∈ l₁, p y = false := by
  induction l with
  | nil => simp [List.find?] at h
  | cons a l ih =>
      by_cases hpa : p a = true
      · rw [List.find?_cons_of_pos _ hpa] at h
        obtain rfl : a = x := Option.some.inj h
        exact ⟨[], l, rfl, by simp⟩
      · rw [List.find?_cons_of_neg _ (by simpa using hpa)] at h
        obtain ⟨l₁, l₂, rfl, hl₁⟩ := ih h
        refine ⟨a :: l₁, l₂, rfl, ?_⟩
        intro y hy
        rcases List.mem_cons.mp hy with rfl | hy1
        · simpa using hpa
        · exact hl₁ y hy1

theorem updateFirst_append_cons {p : α → Bool} {f : α → α} {l₁ l₂ : List α} {x : α}
    (h₁ : ∀ y ∈ l₁, p y = false) (h₂ : p x = true) :
    updateFirst p f (l₁ ++ x :: l₂) = l₁ ++ f x :: l₂ := by
  induction l₁ with
  | nil => simp [updateFirst, h₂]
  | cons a l ih =>
      simp only [List.cons_append, updateFirst]
      rw [if_neg (by simp [h₁ a (List.mem_cons_self a l)])]
      exact congrArg (List.cons a) (ih (fun y hy => h₁ y (List.mem_cons_of_mem a hy)))

theorem map_updateFirst {p : α → Bool} {f : α → α} {proj : α → β}
    (hf : ∀ x, proj (f x) = proj x) (l : List α) :
    (updateFirst p f l).map proj = l.map proj := by
  induction l with
  | nil => rfl
  | cons a l ih =>
      simp only [updateFirst]
      by_cases hpa : p a = true
      · rw [if_pos hpa]
        simp [hf]
      · rw [if_neg hpa]
        simp only [List.map_cons, ih]

theorem bound_updateFirst {p : α → Bool} {f : α → α} {proj : α → Nat} {n : Nat}
    (hf : ∀ x, proj (f x) = proj x) {l : List α} (h : ∀ x ∈ l, proj x < n) :
    ∀ x ∈ updateFirst p f l, proj x < n := by
  intro y hy
  rcases mem_updateFirst hy with h1 | ⟨x, hx, _, rfl⟩
  · exact h y h1
  · rw [hf]
    exact h x hx

theorem pairwise_updateFirst {R : α → α → Prop} {p : α → Bool} {f : α → α} {l : List α}
    (h : l.Pairwise R) (h1 : ∀ x y, R (f x) y) (h2 : ∀ x y, R x (f y)) :
    (updateFirst p f l).Pairwise R := by
  induction l with
  | nil => exact List.Pairwise.nil
  | cons a l ih =>
      rcases List.pairwise_cons.mp h with ⟨ha, hl⟩
      simp only [updateFirst]
      by_cases hpa : p a = true
      · rw [if_pos hpa]
        exact List.pairwise_cons.mpr ⟨fun y _ => h1 a y, hl⟩
      · rw [if_neg hpa]
        refine List.pairwise_cons.mpr ⟨?_, ih hl⟩
        intro y hy
        rcases mem_updateFirst hy with hy1 | ⟨x, _, _, rfl⟩
        · exact ha y hy1
        · exact h2 a x

theorem find?_append_some {p : α → Bool} {l₁ : List α} {x : α}
    (h : l₁.find? p = some x) (l₂ : List α) : (l₁ ++ l₂).find? p = some x := by
  induction l₁ with
  | nil => simp [List.find?] at h
  | cons a l ih =>
      simp only [List.cons_append]
      by_cases hpa : p a = true
      · rw [List.find?_cons_of_pos _ hpa] at h ⊢
        exact h
      · rw [List.find?_cons_of_neg _ (by simpa using hpa)] at h ⊢
        exact ih h

theorem find?_id_updateFirst {proj : α → Nat} {i j : Nat} (hne : j ≠ i) {f : α → α}
    (hf : ∀ x, proj (f x) = proj x) (l : List α) :
    (updateFirst (fun x => proj x == j) f l).find? (fun x => proj x == i) =
      l.find? (fun x => proj x == i) := by
  induction l with
  | nil => rfl
  | cons a l ih =>
      simp only [updateFirst]
      by_cases hpa : proj a = j
      · rw [if_pos (by simp [hpa])]
        have hfa : proj (f a) ≠ i := by
          rw [hf, hpa]
          exact hne
        have haa : proj a ≠ i := hpa ▸ hne
        rw [List.find?_cons_of_neg _ (by simp [hfa]), List.find?_cons_of_neg _ (by simp [haa])]
      · rw [if_neg (by simpa using hpa)]
        by_cases hai : proj a = i
        · rw [List.find?_cons_of_pos _ (by simp [hai]), List.find?_cons_of_pos _ (by simp [hai])]
        · rw [List.find?_cons_of_neg _ (by simp [hai]), List.find?_cons_of_neg _ (by simp [hai])]
          exact ih

theorem find?_of_mem_nodup {proj : α → Nat} {l : List α} (hnd : (l.map proj).Nodup)
    {x : α} (hx : x ∈ l) : l.find? (fun y => proj y == proj x) = some x := by
  induction l with
  | nil => simp at hx
  | cons a l ih =>
      simp only [List.map_cons, List.nodup_cons] at hnd
      rcases List.mem_cons.mp hx with rfl | hx1
      · rw [List.find?_cons_of_pos _ (by simp)]
      · have hne : proj a ≠ proj x := by
          intro he
          exact hnd.1 (he ▸ List.mem_map_of_mem proj hx1)
        rw [List.find?_cons_of_neg _ (by simp [hne])]
        exact ih hnd.2 hx1

theorem nodup_append_single {l : List Nat} {n : Nat} (h : l.Nodup) (hn : n ∉ l) :
    (l ++ [n]).Nodup := by
  induction l with
  | nil => simp
  | cons a l ih =>
      rcases List.nodup_cons.mp h with ⟨ha, hl⟩
      have hn' : n ∉ l := fun hm => hn (List.mem_cons_of_mem a hm)
      have hna : a ≠ n := fun he => hn (he ▸ List.mem_cons_self a l)
      refine List.nodup_cons.mpr ⟨?_, ih hl hn'⟩
      intro hmem
      rcases List.mem_append.mp hmem with h1 | h1
      · exact ha h1
      · exact hna (List.mem_singleton.mp h1)

theorem pairwise_append_single {R : α → α → Prop} {l : List α} {y : α}
    (h : l.Pairwise R) (hy : ∀ x ∈ l, R x y) : (l ++ [y]).Pairwise R := by
  rw [List.pairwise_append]
  exact ⟨h, List.pairwise_singleton R y, fun x hx z hz => (List.mem_singleton.mp hz) ▸ hy x hx⟩

/-! ## Quantity accounting lemmas -/

theorem countAssigned_append_single (G : List AssignmentDoc) (g : AssignmentDoc) (aid : Nat) :
    countAssigned (G ++ [g]) aid =
      countAssigned G aid + (if g.assetId = aid ∧ g.status = "assigned" then 1 else 0) := by
  simp only [countAssigned, List.countP_append]
  congr 1
  simp only [List.countP_cons, List.countP_nil, Nat.zero_add]
  by_cases h1 : g.assetId = aid
  · by_cases h2 : g.status = "assigned"
    · simp [h1, h2]
    · simp [h1, h2]
  · simp [h1]

theorem countAssigned_flip_returned (G₁ G₂ : List AssignmentDoc) (x : AssignmentDoc)
    (hx : x.status = "assigned") (aid : Nat) :
    countAssigned (G₁ ++ x :: G₂) aid =
      countAssigned (G₁ ++ { x with status := "returned" } :: G₂) aid +
        (if x.assetId = aid then 1 else 0) := by
  simp only [countAssigned, List.countP_append, List.countP_cons]
  by_cases h1 : x.assetId = aid
  · simp only [h1, hx, if_pos]
    simp
    omega
  · simp [h1]

theorem countAssigned_eq_zero {G : List AssignmentDoc} {aid : Nat}
    (h : ∀ g ∈ G, g.assetId ≠ aid) : countAssigned G aid = 0 := by
  unfold countAssigned
  rw [List.countP_eq_zero]
  intro g hg
  simp [h g hg]

theorem applyAssetMeta_id (b : UpdateAssetBody) (a : AssetDoc) :
    (applyAssetMeta b a).id = a.id := by
  simp only [applyAssetMeta]
  by_cases h1 : strTruthy b.productName = true <;> by_cases h2 : strTruthy b.productType = true <;>
    simp [h1, h2]

theorem applyAssetMeta_productQuantity (b : UpdateAssetBody) (a : AssetDoc) :
    (applyAssetMeta b a).productQuantity = a.productQuantity := by
  simp only [applyAssetMeta]
  by_cases h1 : strTruthy b.productName = true <;> by_cases h2 : strTruthy b.productType = true <;>
    simp [h1, h2]

theorem applyAssetMeta_availableQuantity (b : UpdateAssetBody) (a : AssetDoc) :
    (applyAssetMeta b a).availableQuantity = a.availableQuantity := by
  simp only [applyAssetMeta]
  by_cases h1 : strTruthy b.productName = true <;> by_cases h2 : strTruthy b.productType = true <;>
    simp [h1, h2]

theorem assetsOkL_assign {A : List AssetDoc} {G : List AssignmentDoc} {aid : Nat} {asset : AssetDoc}
    (hInv : assetsOkL A G) (hNd : (A.map AssetDoc.id).Nodup)
    (hfind : A.find? (fun a => a.id == aid) = some asset)
    (hpos : 0 < asset.availableQuantity)
    {g : AssignmentDoc} (hga : g.assetId = aid) (hgs : g.status = "assigned") :
    assetsOkL
      (updateFirst (fun a => a.id == aid)
        (fun a => { a with availableQuantity := asset.availableQuantity - 1 }) A)
      (G ++ [g]) := by
  have hassetid : asset.id = aid := by simpa using List.find?_some hfind
  obtain ⟨A₁, A₂, heq, hA₁⟩ := find?_decomp hfind
  subst heq
  have hx : asset.id ∉ A₂.map AssetDoc.id := by
    rw [List.map_append, List.map_cons] at hNd
    exact (List.nodup_cons.mp (List.nodup_append.mp hNd).2.1).1
  rw [updateFirst_append_cons hA₁ (by simp [hassetid])]
  intro a' ha'
  rcases List.mem_append.mp ha' with h1 | h1
  · have hniq : a'.id ≠ aid := by simpa using hA₁ a' h1
    have hold := hInv a' (List.mem_append.mpr (Or.inl h1))
    rw [countAssigned_append_single, if_neg ?_]
    · simpa using hold
    · rintro ⟨hc1, _⟩
      exact hniq (by rw [← hc1, hga])
  · rcases List.mem_cons.mp h1 with rfl | h2
    · obtain ⟨hold1, hold2⟩ := hInv asset (by simp)
      rw [hassetid] at hold1
      constructor
      · show asset.availableQuantity - 1 =
          asset.productQuantity - (countAssigned (G ++ [g]) asset.id : Int)
        rw [hassetid, countAssigned_append_single, if_pos ⟨hga, hgs⟩]
        push_cast
        omega
      · show (0:Int) ≤ asset.availableQuantity - 1
        omega
    · have hniq : a'.id ≠ aid := by
        intro he
        have hmem : a'.id ∈ A₂.map AssetDoc.id := List.mem_map_of_mem AssetDoc.id h2
        rw [he, ← hassetid] at hmem
        exact hx hmem
      have hold := hInv a' (List.mem_append.mpr (Or.inr (List.mem_cons_of_mem _ h2)))
      rw [countAssigned_append_single, if_neg ?_]
      · simpa using hold
      · rintro ⟨hc1, _⟩
        exact hniq (by rw [← hc1, hga])

theorem assetsOkL_return {A : List AssetDoc} {G : List AssignmentDoc} {gid : Nat}
    {x : AssignmentDoc}
    (hInv : assetsOkL A G) (hNd : (A.map AssetDoc.id).Nodup)
    (hgfind : G.find? (fun y => y.id == gid) = some x) (hxs : x.status = "assigned") :
    assetsOkL
      (updateFirst (fun a => a.id == x.assetId)
        (fun a => { a with availableQuantity := a.availableQuantity + 1 }) A)
      (updateFirst (fun y => y.id == gid) (fun y => { y with status := "returned" }) G) := by
  have hxid : (x.id == gid) = true := by
    have := List.find?_some hgfind
    simpa using this
  obtain ⟨G₁, G₂, heq, hG₁⟩ := find?_decomp hgfind
  subst heq
  rw [updateFirst_append_cons hG₁ hxid]
  have hcount : ∀ aid : Nat,
      countAssigned (G₁ ++ x :: G₂) aid =
        countAssigned (G₁ ++ { x with status := "returned" } :: G₂) aid +
          (if x.assetId = aid then 1 else 0) :=
    countAssigned_flip_returned G₁ G₂ x hxs
  cases hAfind : A.find? (fun a => a.id == x.assetId) with
  | none =>
      have hnone : ∀ a ∈ A, (fun a => a.id == x.assetId) a = false := by
        intro a ha
        have := List.find?_eq_none.mp hAfind a ha
        simpa using this
      rw [updateFirst_of_forall_not hnone]
      intro a' ha'
      have hniq : a'.id ≠ x.assetId := by simpa using hnone a' ha'
      have hold := hInv a' ha'
      have hifn : ¬(x.assetId = a'.id) := fun hc => hniq hc.symm
      rw [hcount a'.id, if_neg hifn] at hold
      simpa using hold
  | some asset =>
      have hassetid : asset.id = x.assetId := by simpa using List.find?_some hAfind
      obtain ⟨A₁, A₂, heqA, hA₁⟩ := find?_decomp hAfind
      subst heqA
      have hxmem : asset.id ∉ A₂.map AssetDoc.id := by
        rw [List.map_append, List.map_cons] at hNd
        exact (List.nodup_cons.mp (List.nodup_append.mp hNd).2.1).1
      rw [updateFirst_append_cons hA₁ (by simp [hassetid])]
      intro a' ha'
      rcases List.mem_append.mp ha' with h1 | h1
      · have hniq : a'.id ≠ x.assetId := by simpa using hA₁ a' h1
        have hold := hInv a' (List.mem_append.mpr (Or.inl h1))
        have hifn : ¬(x.assetId = a'.id) := fun hc => hniq hc.symm
        rw [hcount a'.id, if_neg hifn] at hold
        simpa using hold
      · rcases List.mem_cons.mp h1 with rfl | h2
        · obtain ⟨hold1, hold2⟩ := hInv asset (by simp)
          have hifp : x.assetId = asset.id := hassetid.symm
          rw [hcount asset.id, if_pos hifp] at hold1
          constructor
          · show asset.availableQuantity + 1 =
              asset.productQuantity -
                (countAssigned (G₁ ++ { x with status := "returned" } :: G₂) asset.id : Int)
            push_cast at hold1 ⊢
            omega
          · show (0:Int) ≤ asset.availableQuantity + 1
            omega
        · have hniq : a'.id ≠ x.assetId := by
            intro he
            have hmem : a'.id ∈ A₂.map AssetDoc.id := List.mem_map_of_mem AssetDoc.id h2
            rw [he, ← hassetid] at hmem
            exact hxmem hmem
          have hold := hInv a' (List.mem_append.mpr (Or.inr (List.mem_cons_of_mem _ h2)))
          have hifn : ¬(x.assetId = a'.id) := fun hc => hniq hc.symm
          rw [hcount a'.id, if_neg hifn] at hold
          simpa using hold

theorem assetsOkL_meta {A : List AssetDoc} {G : List AssignmentDoc} {p : AssetDoc → Bool}
    {b : UpdateAssetBody} (hInv : assetsOkL A G) :
    assetsOkL (updateFirst p (applyAssetMeta b) A) G := by
  intro a' ha'
  rcases mem_updateFirst ha' with h1 | ⟨z, hz, _, rfl⟩
  · exact hInv a' h1
  · have h := hInv z hz
    rw [applyAssetMeta_id, applyAssetMeta_productQuantity, applyAssetMeta_availableQuantity]
    exact h

theorem assetsOkL_updateQuantity {A : List AssetDoc} {G : List AssignmentDoc} {aid : Nat}
    {asset : AssetDoc} {b : UpdateAssetBody} {pq : Int}
    (hInv : assetsOkL A G)
    (hfind : A.find? (fun a => a.id == aid) = some asset)
    (hge : (countAssigned G aid : Int) ≤ pq) :
    assetsOkL (updateFirst (fun a => a.id == aid)
      (fun a0 => applyAssetMeta b { a0 with productQuantity := pq, availableQuantity := max 0 (asset.availableQuantity + (pq - asset.productQuantity)) }) A)
      G := by
  have hassetid : asset.id = aid := by simpa using List.find?_some hfind
  obtain ⟨A₁, A₂, heq, hA₁⟩ := find?_decomp hfind
  subst heq
  rw [updateFirst_append_cons hA₁ (by simp [hassetid])]
  intro a' ha'
  rcases List.mem_append.mp ha' with h1 | h1
  · exact hInv a' (List.mem_append.mpr (Or.inl h1))
  · rcases List.mem_cons.mp h1 with rfl | h2
    · obtain ⟨hold1, hold2⟩ := hInv asset (by simp)
      rw [hassetid] at hold1
      rw [applyAssetMeta_id, applyAssetMeta_productQuantity, applyAssetMeta_availableQuantity]
      constructor
      · show max 0 (asset.availableQuantity + (pq - asset.productQuantity)) =
          pq - (countAssigned G asset.id : Int)
        rw [hassetid]
        have hpos : (0:Int) ≤ asset.availableQuantity + (pq - asset.productQuantity) := by omega
        rw [max_eq_right hpos]
        omega
      · show (0:Int) ≤ max 0 (asset.availableQuantity + (pq - asset.productQuantity))
        exact le_max_left 0 _
    · exact hInv a' (List.mem_append.mpr (Or.inr (List.mem_cons_of_mem _ h2)))

theorem assetsOkL_append_asset {A : List AssetDoc} {G : List AssignmentDoc} {n : AssetDoc}
    (hInv : assetsOkL A G) (hcnt : countAssigned G n.id = 0)
    (hq : n.availableQuantity = n.productQuantity) (hq0 : 0 ≤ n.availableQuantity) :
    assetsOkL (A ++ [n]) G := by
  intro a' ha'
  rcases List.mem_append.mp ha' with h1 | h1
  · exact hInv a' h1
  · obtain rfl := List.mem_singleton.mp h1
    refine ⟨?_, hq0⟩
    rw [hcnt]
    simpa using hq

theorem notBothPending_left {r1 r2 : RequestDoc} (h : r1.status ≠ "pending") :
    NotBothPending r1 r2 := fun hc => h hc.1

theorem notBothPending_right {r1 r2 : RequestDoc} (h : r2.status ≠ "pending") :
    NotBothPending r1 r2 := fun hc => h hc.2.1

/-! ## Id bookkeeping lemmas -/

theorem notin_map_of_bound {l : List α} {proj : α → Nat} {n : Nat}
    (h : ∀ x ∈ l, proj x < n) : n ∉ l.map proj := by
  intro hmem
  obtain ⟨x, hx, hpx⟩ := List.mem_map.mp hmem
  exact (h x hx).ne hpx

theorem nodup_map_append {l : List α} {proj : α → Nat} {n : Nat} {y : α}
    (hnd : (l.map proj).Nodup) (hb : ∀ x ∈ l, proj x < n) (hy : proj y = n) :
    ((l ++ [y]).map proj).Nodup := by
  rw [List.map_append, List.map_singleton, hy]
  exact nodup_append_single hnd (notin_map_of_bound hb)

theorem bound_mono {l : List α} {proj : α → Nat} {n m : Nat}
    (hb : ∀ x ∈ l, proj x < n) (hnm : n ≤ m) : ∀ x ∈ l, proj x < m :=
  fun x hx => lt_of_lt_of_le (hb x hx) hnm

theorem bound_append_single {l : List α} {proj : α → Nat} {n m : Nat} {y : α}
    (hb : ∀ x ∈ l, proj x < n) (hnm : n ≤ m) (hy : proj y < m) :
    ∀ x ∈ l ++ [y], proj x < m := by
  intro x hx
  rcases List.mem_append.mp hx with h1 | h1
  · exact lt_of_lt_of_le (hb x h1) hnm
  · rw [List.mem_singleton.mp h1]
    exact hy

/-! ## Invariant preservation, operation by operation -/

theorem storeInv_insert_asset (s : Store) (n : AssetDoc) (hid : n.id = s.nextId)
    (hq : n.availableQuantity = n.productQuantity) (hq0 : 0 ≤ n.availableQuantity)
    (h : StoreInv s) :
    StoreInv { s with assets := s.assets ++ [n], nextId := s.nextId + 1 } := by
  obtain ⟨⟨hnA, hnR, hnG, hnF, hbA, hbR, hbG, hbF, hbGA⟩, hAok, hPend⟩ := h
  refine ⟨⟨?_, hnR, hnG, hnF, ?_, ?_, ?_, ?_, ?_⟩, ?_, hPend⟩
  · exact nodup_map_append hnA hbA hid
  · refine bound_append_single hbA (Nat.le_succ _) ?_
    rw [hid]
    exact Nat.lt_succ_self _
  · exact bound_mono hbR (Nat.le_succ _)
  · exact bound_mono hbG (Nat.le_succ _)
  · exact bound_mono hbF (Nat.le_succ _)
  · exact bound_mono hbGA (Nat.le_succ _)
  · refine assetsOkL_append_asset hAok ?_ hq hq0
    refine countAssigned_eq_zero fun g hg => ?_
    rw [hid]
    exact (hbGA g hg).ne

theorem storeInv_createAsset (s : Store) (t : String) (b : CreateAssetBody) (h : StoreInv s) :
    StoreInv (createAsset s t b).2 := by
  unfold createAsset
  split
  · exact h
  dsimp only
  split
  · exact h
  split
  · exact h
  split
  · exact h
  split
  · exact h
  split
  · exact h
  split
  · exact h
  split
  · exact h
  split
  · refine storeInv_insert_asset s _ rfl rfl ?_ h
    show (0:Int) ≤ b.productQuantity
    omega
  split
  · exact h
  · refine storeInv_insert_asset s _ rfl rfl ?_ h
    show (0:Int) ≤ b.productQuantity
    omega

theorem storeInv_createRequest (s : Store) (t : String) (b : CreateRequestBody) (h : StoreInv s) :
    StoreInv (createRequest s t b).2 := by
  unfold createRequest
  split
  · exact h
  split
  · exact h
  split
  · exact h
  split
  · exact h
  next asset hfind =>
  split
  · exact h
  split
  · exact h
  next hdup =>
  obtain ⟨⟨hnA, hnR, hnG, hnF, hbA, hbR, hbG, hbF, hbGA⟩, hAok, hPend⟩ := h
  refine ⟨⟨hnA, ?_, hnG, hnF, ?_, ?_, ?_, ?_, ?_⟩, hAok, ?_⟩
  · exact nodup_map_append hnR hbR rfl
  · exact bound_mono hbA (Nat.le_succ _)
  · exact bound_append_single hbR (Nat.le_succ _) (Nat.lt_succ_self _)
  · exact bound_mono hbG (Nat.le_succ _)
  · exact bound_mono hbF (Nat.le_succ _)
  · exact bound_mono hbGA (Nat.le_succ _)
  · refine pairwise_append_single hPend ?_
    intro r hr hcon
    have hfnone : s.requests.find? (fun r =>
        r.assetId == b.assetId && r.employeeEmail == b.employeeEmail &&
        r.status == "pending") = none := Option.not_isSome_iff_eq_none.mp hdup
    have hnr := List.find?_eq_none.mp hfnone r hr
    apply hnr
    obtain ⟨h1, h2, h3, h4⟩ := hcon
    simp only [Bool.and_eq_true, beq_iff_eq]
    exact ⟨⟨h3, h4⟩, h1⟩

theorem bound_of_map_eq {l l' : List α} {proj : α → Nat} {n : Nat}
    (hmap : l'.map proj = l.map proj) (h : ∀ x ∈ l, proj x < n) : ∀ x ∈ l', proj x < n := by
  intro x hx
  have hmem : proj x ∈ l.map proj := by
    rw [← hmap]
    exact List.mem_map_of_mem proj hx
  obtain ⟨z, hz, hpz⟩ := List.mem_map.mp hmem
  rw [← hpz]
  exact h z hz

theorem storeInv_assets_updateFirst (s : Store) {p : AssetDoc → Bool} {f : AssetDoc → AssetDoc}
    (hfid : ∀ a, (f a).id = a.id) (h : StoreInv s)
    (hok : assetsOkL (updateFirst p f s.assets) s.assignments) :
    StoreInv { s with assets := updateFirst p f s.assets } := by
  obtain ⟨⟨hnA, hnR, hnG, hnF, hbA, hbR, hbG, hbF, hbGA⟩, hAok, hPend⟩ := h
  refine ⟨⟨?_, hnR, hnG, hnF, ?_, hbR, hbG, hbF, hbGA⟩, hok, hPend⟩
  · rw [map_updateFirst hfid]
    exact hnA
  · exact bound_updateFirst hfid hbA

theorem storeInv_requests_decide (s : Store) {p : RequestDoc → Bool} {f : RequestDoc → RequestDoc}
    (hfid : ∀ r, (f r).id = r.id) (hfst : ∀ r, (f r).status ≠ "pending") (h : StoreInv s) :
    StoreInv { s with requests := updateFirst p f s.requests } := by
  obtain ⟨⟨hnA, hnR, hnG, hnF, hbA, hbR, hbG, hbF, hbGA⟩, hAok, hPend⟩ := h
  refine ⟨⟨hnA, ?_, hnG, hnF, hbA, ?_, hbG, hbF, hbGA⟩, hAok, ?_⟩
  · rw [map_updateFirst hfid]
    exact hnR
  · exact bound_updateFirst hfid hbR
  · exact pairwise_updateFirst hPend (fun x _ => notBothPending_left (hfst x))
      (fun _ y => notBothPending_right (hfst y))

theorem storeInv_insert_affiliation (s : Store) (nf : AffiliationDoc) (hid : nf.id = s.nextId)
    (users' : List UserDoc) (h : StoreInv s) :
    StoreInv { s with
      affiliations := s.affiliations ++ [nf]
      users := users'
      nextId := s.nextId + 1 } := by
  obtain ⟨⟨hnA, hnR, hnG, hnF, hbA, hbR, hbG, hbF, hbGA⟩, hAok, hPend⟩ := h
  refine ⟨⟨hnA, hnR, hnG, ?_, ?_, ?_, ?_, ?_, ?_⟩, hAok, hPend⟩
  · exact nodup_map_append hnF hbF hid
  · exact bound_mono hbA (Nat.le_succ _)
  · exact bound_mono hbR (Nat.le_succ _)
  · exact bound_mono hbG (Nat.le_succ _)
  · refine bound_append_single hbF (Nat.le_succ _) ?_
    rw [hid]
    exact Nat.lt_succ_self _
  · exact bound_mono hbGA (Nat.le_succ _)

theorem storeInv_assign_shape (s : Store) (g : AssignmentDoc) (asset : AssetDoc)
    (hfind : s.assets.find? (fun a => a.id == g.assetId) = some asset)
    (hpos : 0 < asset.availableQuantity) (hgid : g.id = s.nextId) (hgs : g.status = "assigned")
    (h : StoreInv s) :
    StoreInv { s with
      assignments := s.assignments ++ [g]
      assets := updateFirst (fun a => a.id == g.assetId) (fun a => { a with availableQuantity := asset.availableQuantity - 1 }) s.assets
      nextId := s.nextId + 1 } := by
  obtain ⟨⟨hnA, hnR, hnG, hnF, hbA, hbR, hbG, hbF, hbGA⟩, hAok, hPend⟩ := h
  have hfid : ∀ a : AssetDoc,
      ({ a with availableQuantity := asset.availableQuantity - 1 } : AssetDoc).id = a.id :=
    fun _ => rfl
  have hassetmem := List.mem_of_find?_eq_some hfind
  refine ⟨⟨?_, hnR, ?_, hnF, ?_, ?_, ?_, ?_, ?_⟩, ?_, hPend⟩
  · rw [map_updateFirst hfid]
    exact hnA
  · exact nodup_map_append hnG hbG hgid
  · exact bound_updateFirst hfid (bound_mono hbA (Nat.le_succ _))
  · exact bound_mono hbR (Nat.le_succ _)
  · refine bound_append_single hbG (Nat.le_succ _) ?_
    rw [hgid]
    exact Nat.lt_succ_self _
  · exact bound_mono hbF (Nat.le_succ _)
  · refine bound_append_single hbGA (Nat.le_succ _) ?_
    have : asset.id = g.assetId := by simpa using List.find?_some hfind
    rw [← this]
    exact Nat.lt_succ_of_lt (hbA asset hassetmem)
  · exact assetsOkL_assign hAok hnA hfind hpos rfl hgs

theorem updateFirst_congr_find {p : α → Bool} {f₁ f₂ : α → α} {l : List α} {x : α}
    (hfind : l.find? p = some x) (hagree : f₁ x = f₂ x) :
    updateFirst p f₁ l = updateFirst p f₂ l := by
  have hpx := List.find?_some hfind
  obtain ⟨l₁, l₂, heq, hl₁⟩ := find?_decomp hfind
  subst heq
  rw [updateFirst_append_cons hl₁ hpx, updateFirst_append_cons hl₁ hpx, hagree]

theorem storeInv_updateAsset (s : Store) (t : String) (aid : Nat) (b : UpdateAssetBody)
    (h : StoreInv s) : StoreInv (updateAsset s t aid b).2 := by
  unfold updateAsset
  split
  · exact h
  split
  · exact h
  next asset hfind =>
  split
  · -- productQuantity given
    dsimp only
    split
    · split
      · exact h
      next hge =>
        refine storeInv_assets_updateFirst s ?_ h ?_
        · intro a
          rw [applyAssetMeta_id]
        · exact assetsOkL_updateQuantity h.2.1 hfind (by omega)
    · refine storeInv_assets_updateFirst s ?_ h (assetsOkL_meta h.2.1)
      intro a
      exact applyAssetMeta_id b a
  · refine storeInv_assets_updateFirst s ?_ h (assetsOkL_meta h.2.1)
    intro a
    exact applyAssetMeta_id b a

theorem storeInv_assignAsset (s : Store) (t : String) (b : AssignBody) (h : StoreInv s) :
    StoreInv (assignAsset s t b).2 := by
  unfold assignAsset
  split
  · exact h
  split
  · exact h
  split
  · exact h
  split
  · exact h
  split
  · exact h
  next asset hfind =>
  split
  · exact h
  split
  · exact h
  next hpos _ =>
  dsimp only
  exact storeInv_assign_shape s { id := s.nextId, assetId := b.assetId, productName := orElseStr b.productName asset.productName, productImage := orElseStr b.productImage asset.productImage, productType := orElseStr b.productType asset.productType, employeeEmail := b.employeeEmail, employeeName := sanitize b.employeeName, companyName := sanitize b.companyName, status := "assigned" } asset hfind (by omega) rfl rfl h

theorem storeInv_returnAsset (s : Store) (t : String) (gid : Nat) (e : Option String)
    (h : StoreInv s) : StoreInv (returnAsset s t gid e).2 := by
  unfold returnAsset
  split
  · exact h
  dsimp only
  split
  · exact h
  next assignment hgfind =>
  split
  · exact h
  next hstat =>
  split
  · exact h
  split
  · exact h
  next asset hafind =>
  obtain ⟨⟨hnA, hnR, hnG, hnF, hbA, hbR, hbG, hbF, hbGA⟩, hAok, hPend⟩ := h
  have hstat' : assignment.status = "assigned" := not_ne_iff.mp hstat
  have hfid1 : ∀ a : AssetDoc,
      ({ a with availableQuantity := asset.availableQuantity + 1 } : AssetDoc).id = a.id :=
    fun _ => rfl
  have hfid2 : ∀ g : AssignmentDoc,
      ({ g with status := "returned" } : AssignmentDoc).id = g.id := fun _ => rfl
  have hfga : ∀ g : AssignmentDoc,
      ({ g with status := "returned" } : AssignmentDoc).assetId = g.assetId := fun _ => rfl
  refine ⟨⟨?_, hnR, ?_, hnF, ?_, hbR, ?_, hbF, ?_⟩, ?_, hPend⟩
  · rw [map_updateFirst hfid1]
    exact hnA
  · rw [map_updateFirst hfid2]
    exact hnG
  · exact bound_updateFirst hfid1 hbA
  · exact bound_updateFirst hfid2 hbG
  · exact bound_updateFirst hfga hbGA
  · have hcongr : updateFirst (fun a => a.id == assignment.assetId)
        (fun a => { a with availableQuantity := asset.availableQuantity + 1 }) s.assets =
      updateFirst (fun a => a.id == assignment.assetId)
        (fun a => { a with availableQuantity := a.availableQuantity + 1 }) s.assets :=
      updateFirst_congr_find hafind rfl
    show assetsOkL (updateFirst (fun a => a.id == assignment.assetId)
        (fun a => { a with availableQuantity := asset.availableQuantity + 1 }) s.assets)
      (updateFirst (fun g => g.id == gid) (fun g => { g with status := "returned" }) s.assignments)
    rw [hcongr]
    exact assetsOkL_return hAok hnA hgfind hstat'

theorem storeInv_approveCore (s : Store) (rid : Nat) (request : RequestDoc) (asset : AssetDoc)
    (hrUser : UserDoc)
    (hfind : s.assets.find? (fun a => a.id == request.assetId) = some asset)
    (hpos : 0 < asset.availableQuantity) (h : StoreInv s) :
    StoreInv (approveCore s rid request asset hrUser).2 := by
  unfold approveCore
  dsimp only
  split
  next e heq => exact h
  next s1 heq =>
  dsimp only
  split at heq
  · -- an active affiliation already exists: only its updatedAt is touched
    obtain rfl : s = s1 := Sum.inr.inj heq
    refine storeInv_requests_decide ({ s with assignments := s.assignments ++ [{ id := s.nextId, assetId := request.assetId, productName := request.assetName, productImage := request.assetImage, productType := asset.productType, employeeEmail := request.employeeEmail, employeeName := request.employeeName, companyName := request.companyName, status := "assigned" }], assets := updateFirst (fun a => a.id == request.assetId) (fun a => { a with availableQuantity := asset.availableQuantity - 1 }) s.assets, nextId := s.nextId + 1 }) ?_ ?_ ?_
    · intro r
      rfl
    · intro r
      show "approved" ≠ "pending"
      decide
    · exact storeInv_assign_shape s { id := s.nextId, assetId := request.assetId, productName := request.assetName, productImage := request.assetImage, productType := asset.productType, employeeEmail := request.employeeEmail, employeeName := request.employeeName, companyName := request.companyName, status := "assigned" } asset hfind hpos rfl rfl h
  · split at heq
    · exact absurd heq (by simp)
    split at heq
    · exact absurd heq (by simp)
    obtain heq' : _ = s1 := Sum.inr.inj heq
    subst heq'
    refine storeInv_requests_decide ({ ({ s with affiliations := s.affiliations ++ [{ id := s.nextId, employeeEmail := request.employeeEmail, employeeName := sanitize request.employeeName, hrEmail := request.hrEmail, companyName := sanitize request.companyName, status := "active" }], users := updateFirst (fun u => u.email == request.hrEmail) (fun u => { u with currentEmployees := hrUser.currentEmployees + 1 }) s.users, nextId := s.nextId + 1 } : Store) with assignments := s.assignments ++ [{ id := s.nextId + 1, assetId := request.assetId, productName := request.assetName, productImage := request.assetImage, productType := asset.productType, employeeEmail := request.employeeEmail, employeeName := request.employeeName, companyName := request.companyName, status := "assigned" }], assets := updateFirst (fun a => a.id == request.assetId) (fun a => { a with availableQuantity := asset.availableQuantity - 1 }) s.assets, nextId := s.nextId + 1 + 1 }) ?_ ?_ ?_
    · intro r
      rfl
    · intro r
      show "approved" ≠ "pending"
      decide
    · refine storeInv_assign_shape ({ s with affiliations := s.affiliations ++ [{ id := s.nextId, employeeEmail := request.employeeEmail, employeeName := sanitize request.employeeName, hrEmail := request.hrEmail, companyName := sanitize request.companyName, status := "active" }], users := updateFirst (fun u => u.email == request.hrEmail) (fun u => { u with currentEmployees := hrUser.currentEmployees + 1 }) s.users, nextId := s.nextId + 1 }) { id := s.nextId + 1, assetId := request.assetId, productName := request.assetName, productImage := request.assetImage, productType := asset.productType, employeeEmail := request.employeeEmail, employeeName := request.employeeName, companyName := request.companyName, status := "assigned" } asset hfind hpos rfl rfl ?_
      exact storeInv_insert_affiliation s { id := s.nextId, employeeEmail := request.employeeEmail, employeeName := sanitize request.employeeName, hrEmail := request.hrEmail, companyName := sanitize request.companyName, status := "active" } rfl _ h

theorem storeInv_patchRequest (s : Store) (t : String) (rid : Nat) (st : String)
    (reason : Option String) (h : StoreInv s) : StoreInv (patchRequest s t rid st reason).2 := by
  unfold patchRequest
  split
  · exact h
  split
  · exact h
  split
  · exact h
  next request hreq =>
  split
  · exact h
  split
  · -- approval path
    split
    · exact h
    next asset hafind =>
    split
    · exact h
    split
    · exact h
    next hrUser hufind =>
    exact storeInv_approveCore s rid request asset hrUser hafind (by omega) h
  · -- rejection path
    dsimp only
    refine storeInv_requests_decide _ ?_ ?_ h
    · intro r'
      rfl
    · intro r'
      show "rejected" ≠ "pending"
      decide

theorem returnStep_good (st : Store) (g : AssignmentDoc)
    (hA : assetsOkL st.assets st.assignments)
    (hNdA : (st.assets.map AssetDoc.id).Nodup)
    (hNdG : (st.assignments.map AssignmentDoc.id).Nodup)
    (hg : g ∈ st.assignments) (hgs : g.status = "assigned") :
    assetsOkL (returnStep st g).assets (returnStep st g).assignments ∧
    (returnStep st g).assets.map AssetDoc.id = st.assets.map AssetDoc.id ∧
    (returnStep st g).assignments.map AssignmentDoc.id = st.assignments.map AssignmentDoc.id ∧
    (returnStep st g).assignments.map AssignmentDoc.assetId =
      st.assignments.map AssignmentDoc.assetId ∧
    (∀ x ∈ st.assignments, x.id ≠ g.id → x ∈ (returnStep st g).assignments) := by
  have hgfind : st.assignments.find? (fun y => y.id == g.id) = some g :=
    find?_of_mem_nodup hNdG hg
  unfold returnStep
  dsimp only
  refine ⟨?_, ?_, ?_, ?_, ?_⟩
  · exact assetsOkL_return hA hNdA hgfind hgs
  · refine map_updateFirst ?_ _
    intro x
    rfl
  · refine map_updateFirst ?_ _
    intro x
    rfl
  · refine map_updateFirst ?_ _
    intro x
    rfl
  · intro x hx hne
    exact mem_updateFirst_of_not hx (by simp [hne])

theorem foldl_returnStep_good (snap : List AssignmentDoc) (st : Store)
    (hA : assetsOkL st.assets st.assignments)
    (hNdA : (st.assets.map AssetDoc.id).Nodup)
    (hNdG : (st.assignments.map AssignmentDoc.id).Nodup)
    (hmem : ∀ g ∈ snap, g ∈ st.assignments)
    (hst : ∀ g ∈ snap, g.status = "assigned")
    (hNdSnap : (snap.map AssignmentDoc.id).Nodup) :
    assetsOkL (snap.foldl returnStep st).assets (snap.foldl returnStep st).assignments ∧
    (snap.foldl returnStep st).assets.map AssetDoc.id = st.assets.map AssetDoc.id ∧
    (snap.foldl returnStep st).assignments.map AssignmentDoc.id =
      st.assignments.map AssignmentDoc.id ∧
    (snap.foldl returnStep st).assignments.map AssignmentDoc.assetId =
      st.assignments.map AssignmentDoc.assetId ∧
    (snap.foldl returnStep st).users = st.users ∧
    (snap.foldl returnStep st).requests = st.requests ∧
    (snap.foldl returnStep st).affiliations = st.affiliations ∧
    (snap.foldl returnStep st).nextId = st.nextId := by
  induction snap generalizing st with
  | nil => exact ⟨hA, rfl, rfl, rfl, rfl, rfl, rfl, rfl⟩
  | cons g rest ih =>
      have hgmem : g ∈ st.assignments := hmem g (List.mem_cons_self g rest)
      have hgs : g.status = "assigned" := hst g (List.mem_cons_self g rest)
      obtain ⟨hA', hmA, hmG, hmGA, hsurv⟩ := returnStep_good st g hA hNdA hNdG hgmem hgs
      simp only [List.map_cons, List.nodup_cons] at hNdSnap
      have hmem' : ∀ x ∈ rest, x ∈ (returnStep st g).assignments := by
        intro x hx
        refine hsurv x (hmem x (List.mem_cons_of_mem g hx)) ?_
        intro he
        exact hNdSnap.1 (he ▸ List.mem_map_of_mem AssignmentDoc.id hx)
      obtain ⟨k1, k2, k3, k4, k5, k6, k7, k8⟩ := ih (returnStep st g) hA'
        (by rw [hmA]; exact hNdA) (by rw [hmG]; exact hNdG) hmem'
        (fun x hx => hst x (List.mem_cons_of_mem g hx)) hNdSnap.2
      exact ⟨k1, k2.trans hmA, k3.trans hmG, k4.trans hmGA, k5, k6, k7, k8⟩

theorem storeInv_of_parts (s0 s1 : Store)
    (hA : assetsOkL s1.assets s1.assignments)
    (e1 : s1.assets.map AssetDoc.id = s0.assets.map AssetDoc.id)
    (e2 : s1.assignments.map AssignmentDoc.id = s0.assignments.map AssignmentDoc.id)
    (e3 : s1.assignments.map AssignmentDoc.assetId = s0.assignments.map AssignmentDoc.assetId)
    (e4 : s1.requests = s0.requests)
    (e5 : s1.affiliations.map AffiliationDoc.id = s0.affiliations.map AffiliationDoc.id)
    (e6 : s1.nextId = s0.nextId) (h : StoreInv s0) : StoreInv s1 := by
  obtain ⟨⟨hnA, hnR, hnG, hnF, hbA, hbR, hbG, hbF, hbGA⟩, hAok, hPend⟩ := h
  refine ⟨⟨?_, ?_, ?_, ?_, ?_, ?_, ?_, ?_, ?_⟩, hA, ?_⟩
  · rw [e1]
    exact hnA
  · rw [e4]
    exact hnR
  · rw [e2]
    exact hnG
  · rw [e5]
    exact hnF
  · rw [e6]
    exact bound_of_map_eq e1 hbA
  · rw [e4, e6]
    exact hbR
  · rw [e6]
    exact bound_of_map_eq e2 hbG
  · rw [e6]
    exact bound_of_map_eq e5 hbF
  · rw [e6]
    exact bound_of_map_eq e3 hbGA
  · unfold NoDupPending
    rw [e4]
    exact hPend

theorem storeInv_removeAffiliation (s : Store) (t : String) (b : RemoveAffiliationBody)
    (h : StoreInv s) : StoreInv (removeAffiliation s t b).2 := by
  unfold removeAffiliation
  split
  · exact h
  split
  · exact h
  split
  · exact h
  next affiliation haff =>
  dsimp only
  obtain ⟨⟨hnA, hnR, hnG, hnF, hbA, hbR, hbG, hbF, hbGA⟩, hAok, hPend⟩ := h
  have hmem : ∀ g ∈ s.assignments.filter (fun g =>
      g.employeeEmail == sanitize b.employeeEmail &&
      g.companyName == sanitize b.companyName && g.status == "assigned"),
      g ∈ s.assignments := fun g hg => List.mem_of_mem_filter hg
  have hstt : ∀ g ∈ s.assignments.filter (fun g =>
      g.employeeEmail == sanitize b.employeeEmail &&
      g.companyName == sanitize b.companyName && g.status == "assigned"),
      g.status = "assigned" := by
    intro g hg
    have hp := List.of_mem_filter hg
    simp only [Bool.and_eq_true, beq_iff_eq] at hp
    exact hp.2
  have hnds : ((s.assignments.filter (fun g =>
      g.employeeEmail == sanitize b.employeeEmail &&
      g.companyName == sanitize b.companyName &&
      g.status == "assigned")).map AssignmentDoc.id).Nodup :=
    hnG.sublist ((List.filter_sublist _).map _)
  obtain ⟨k1, k2, k3, k4, k5, k6, k7, k8⟩ := foldl_returnStep_good _ s hAok hnA hnG hmem hstt hnds
  have hfid : ∀ f : AffiliationDoc, ({ f with status := "inactive" } : AffiliationDoc).id = f.id :=
    fun _ => rfl
  split
  · refine storeInv_of_parts s _ k1 k2 k3 k4 k6 ?_ k8
      ⟨⟨hnA, hnR, hnG, hnF, hbA, hbR, hbG, hbF, hbGA⟩, hAok, hPend⟩
    exact (map_updateFirst hfid _).trans (congrArg (List.map AffiliationDoc.id) k7)
  · refine storeInv_of_parts s _ k1 k2 k3 k4 k6 ?_ k8
      ⟨⟨hnA, hnR, hnG, hnF, hbA, hbR, hbG, hbF, hbGA⟩, hAok, hPend⟩
    exact (map_updateFirst hfid _).trans (congrArg (List.map AffiliationDoc.id) k7)

theorem storeInv_applyOp (s : Store) (op : Op) (h : StoreInv s) : StoreInv (applyOp s op) := by
  cases op with
  | createAsset t b => exact storeInv_createAsset s t b h
  | updateAsset t aid b => exact storeInv_updateAsset s t aid b h
  | createRequest t b => exact storeInv_createRequest s t b h
  | patchRequest t rid st r => exact storeInv_patchRequest s t rid st r h
  | assignAsset t b => exact storeInv_assignAsset s t b h
  | returnAsset t gid e => exact storeInv_returnAsset s t gid e h
  | removeAffiliation t b => exact storeInv_removeAffiliation s t b h

theorem storeInv_runOps (s : Store) (ops : List Op) (h : StoreInv s) :
    StoreInv (runOps s ops) := by
  induction ops generalizing s with
  | nil => exact h
  | cons op rest ih => exact ih (applyOp s op) (storeInv_applyOp s op h)

/-! ## Stability of decided requests -/

theorem createAsset_requests (s : Store) (t : String) (b : CreateAssetBody) :
    (createAsset s t b).2.requests = s.requests := by
  unfold createAsset
  repeat (first | rfl | split | dsimp only)

theorem updateAsset_requests (s : Store) (t : String) (aid : Nat) (b : UpdateAssetBody) :
    (updateAsset s t aid b).2.requests = s.requests := by
  unfold updateAsset
  repeat (first | rfl | split | dsimp only)

theorem assignAsset_requests (s : Store) (t : String) (b : AssignBody) :
    (assignAsset s t b).2.requests = s.requests := by
  unfold assignAsset
  repeat (first | rfl | split | dsimp only)

theorem returnAsset_requests (s : Store) (t : String) (gid : Nat) (e : Option String) :
    (returnAsset s t gid e).2.requests = s.requests := by
  unfold returnAsset
  repeat (first | rfl | split | dsimp only)

theorem foldl_returnStep_requests (snap : List AssignmentDoc) (st : Store) :
    (snap.foldl returnStep st).requests = st.requests := by
  induction snap generalizing st with
  | nil => rfl
  | cons g rest ih => exact (ih (returnStep st g)).trans rfl

theorem removeAffiliation_requests (s : Store) (t : String) (b : RemoveAffiliationBody) :
    (removeAffiliation s t b).2.requests = s.requests := by
  unfold removeAffiliation
  split
  · rfl
  split
  · rfl
  split
  · rfl
  dsimp only
  split
  · exact foldl_returnStep_requests _ s
  · exact foldl_returnStep_requests _ s

theorem patchRequest_nonpending_stable (s : Store) (t : String) (rid' : Nat) (st : String)
    (reason : Option String) {rid : Nat} {req : RequestDoc}
    (hfind : s.requests.find? (fun r => r.id == rid) = some req)
    (hnp : req.status ≠ "pending") :
    (patchRequest s t rid' st reason).2.requests.find? (fun r => r.id == rid) = some req := by
  unfold patchRequest
  split
  · exact hfind
  split
  · exact hfind
  split
  · exact hfind
  next request hreq =>
  split
  · exact hfind
  next hpend2 =>
  have hne : rid' ≠ rid := by
    intro he
    subst he
    rw [hfind] at hreq
    obtain rfl := Option.some.inj hreq
    exact hnp (not_ne_iff.mp hpend2)
  split
  · split
    · exact hfind
    next asset hafind =>
    split
    · exact hfind
    split
    · exact hfind
    next hrUser hufind =>
    unfold approveCore
    dsimp only
    split
    next e heq => exact hfind
    next s1 heq =>
    dsimp only
    split at heq
    · obtain rfl : s = s1 := Sum.inr.inj heq
      rw [@find?_id_updateFirst RequestDoc RequestDoc.id rid rid' hne
        (fun r => { r with status := "approved" }) (fun r => rfl) s.requests]
      exact hfind
    · split at heq
      · exact absurd heq (by simp)
      split at heq
      · exact absurd heq (by simp)
      obtain heq' : _ = s1 := Sum.inr.inj heq
      subst heq'
      rw [@find?_id_updateFirst RequestDoc RequestDoc.id rid rid' hne
        (fun r => { r with status := "approved" }) (fun r => rfl) s.requests]
      exact hfind
  · dsimp only
    rw [@find?_id_updateFirst RequestDoc RequestDoc.id rid rid' hne
      (fun r => { r with status := "rejected", rejectionReason := reason.getD "" })
      (fun r => rfl) s.requests]
    exact hfind

theorem createRequest_nonpending_stable (s : Store) (t : String) (b : CreateRequestBody)
    {rid : Nat} {req : RequestDoc}
    (hfind : s.requests.find? (fun r => r.id == rid) = some req) :
    (createRequest s t b).2.requests.find? (fun r => r.id == rid) = some req := by
  unfold createRequest
  split
  · exact hfind
  split
  · exact hfind
  split
  · exact hfind
  split
  · exact hfind
  split
  · exact hfind
  split
  · exact hfind
  exact find?_append_some hfind _

theorem applyOp_nonpending_stable (s : Store) (op : Op) {rid : Nat} {req : RequestDoc}
    (hfind : s.requests.find? (fun r => r.id == rid) = some req)
    (hnp : req.status ≠ "pending") :
    (applyOp s op).requests.find? (fun r => r.id == rid) = some req := by
  cases op with
  | createAsset t b =>
      unfold applyOp
      rw [createAsset_requests]
      exact hfind
  | updateAsset t aid b =>
      unfold applyOp
      rw [updateAsset_requests]
      exact hfind
  | createRequest t b => exact createRequest_nonpending_stable s t b hfind
  | patchRequest t rid' st r => exact patchRequest_nonpending_stable s t rid' st r hfind hnp
  | assignAsset t b =>
      unfold applyOp
      rw [assignAsset_requests]
      exact hfind
  | returnAsset t gid e =>
      unfold applyOp
      rw [returnAsset_requests]
      exact hfind
  | removeAffiliation t b =>
      unfold applyOp
      rw [removeAffiliation_requests]
      exact hfind

theorem runOps_nonpending_stable (s : Store) (ops : List Op) {rid : Nat} {req : RequestDoc}
    (hfind : s.requests.find? (fun r => r.id == rid) = some req)
    (hnp : req.status ≠ "pending") :
    (runOps s ops).requests.find? (fun r => r.id == rid) = some req := by
  induction ops generalizing s with
  | nil => exact hfind
  | cons op rest ih => exact ih (applyOp s op) (applyOp_nonpending_stable s op hfind hnp)

/-! ## The claims -/

/-- C1: for every asset, after any sequence of request-creation,
request-approval, direct-assignment, single-return, bulk-return (affiliation
removal), asset-creation and asset-update operations starting from a store
satisfying the workflow invariant — which holds in particular for freshly
created assets, where `availableQuantity = productQuantity` — the invariant
`0 ≤ availableQuantity ≤ productQuantity` holds. -/
theorem c1_quantity_invariant (s0 : Store) (ops : List Op) (h : StoreInv s0) :
    ∀ a ∈ (runOps s0 ops).assets,
      0 ≤ a.availableQuantity ∧ a.availableQuantity ≤ a.productQuantity := by
  intro a ha
  obtain ⟨_, hAok, _⟩ := storeInv_runOps s0 ops h
  obtain ⟨h1, h2⟩ := hAok a ha
  refine ⟨h2, ?_⟩
  have hc : (0:Int) ≤ (countAssigned (runOps s0 ops).assignments a.id : Int) :=
    Int.ofNat_nonneg _
  omega

theorem c1_quantity_invariant_witness :
    StoreInv c1Store ∧
    ∀ a ∈ (runOps c1Store c1Ops).assets,
      0 ≤ a.availableQuantity ∧ a.availableQuantity ≤ a.productQuantity :=
  ⟨by decide, c1_quantity_invariant c1Store c1Ops (by decide)⟩

/-- C2: approving a pending request whose referenced asset is missing or has
`availableQuantity = 0` fails with 400 `NO_AVAILABLE_QUANTITY` and leaves
every stored document unchanged. -/
theorem c2_approve_unavailable_fails (s : Store) (tok : String) (rid : Nat)
    (reason : Option String) (req : RequestDoc)
    (hhr : verifyHRCheck s tok = none)
    (hreq : s.requests.find? (fun r => r.id == rid) = some req)
    (hpend : req.status = "pending")
    (hasset : s.assets.find? (fun a => a.id == req.assetId) = none ∨
      ∃ a, s.assets.find? (fun a => a.id == req.assetId) = some a ∧ a.availableQuantity = 0) :
    patchRequest s tok rid "approved" reason =
      (.err 400 "Asset no longer available" "NO_AVAILABLE_QUANTITY", s) := by
  unfold patchRequest
  rw [hhr]
  dsimp only
  rw [if_neg (not_not_intro (Or.inl rfl)), hreq]
  dsimp only
  rw [if_neg (not_not_intro hpend), if_pos rfl]
  rcases hasset with hnone | ⟨a, hfind, hzero⟩
  · rw [hnone]
  · rw [hfind]
    dsimp only
    rw [if_pos (by omega)]

theorem c2_approve_unavailable_fails_witness :
    verifyHRCheck c2Store "hr@ex.com" = none ∧
    patchRequest c2Store "hr@ex.com" 2 "approved" none =
      (.err 400 "Asset no longer available" "NO_AVAILABLE_QUANTITY", c2Store) :=
  ⟨by decide, c2_approve_unavailable_fails c2Store "hr@ex.com" 2 none reqW (by decide)
    (by decide) (by decide) (Or.inr ⟨assetZeroW, by decide, by decide⟩)⟩

/-- C3: a request whose status is not `pending` can no longer be decided:
any decision on it via `PATCH /requests/:requestId` is rejected with 400
`INVALID_STATE` and the stored request (in particular its status) never
changes again under any sequence of workflow operations — approved and
rejected are terminal. -/
theorem c3_decided_requests_terminal (s : Store) (tok : String) (rid : Nat) (decision : String)
    (reason : Option String) (req : RequestDoc)
    (hfind : s.requests.find? (fun r => r.id == rid) = some req)
    (hnp : req.status ≠ "pending") :
    (verifyHRCheck s tok = none → (decision = "approved" ∨ decision = "rejected") →
      patchRequest s tok rid decision reason =
        (.err 400 "Only pending requests can be updated" "INVALID_STATE", s)) ∧
    ∀ ops : List Op, (runOps s ops).requests.find? (fun r => r.id == rid) = some req := by
  constructor
  · intro hhr hdec
    unfold patchRequest
    rw [hhr]
    dsimp only
    rw [if_neg (not_not_intro hdec), hfind]
    dsimp only
    rw [if_pos hnp]
  · intro ops
    exact runOps_nonpending_stable s ops hfind hnp

theorem c3_decided_requests_terminal_witness :
    patchRequest c3Store "hr@ex.com" 2 "approved" none =
      (.err 400 "Only pending requests can be updated" "INVALID_STATE", c3Store) ∧
    (runOps c3Store [Op.patchRequest "hr@ex.com" 2 "rejected" none]).requests.find?
      (fun r => r.id == 2) = some reqApprovedW :=
  ⟨(c3_decided_requests_terminal c3Store "hr@ex.com" 2 "approved" none reqApprovedW (by decide)
      (by decide)).1 (by decide) (Or.inl rfl),
   (c3_decided_requests_terminal c3Store "hr@ex.com" 2 "rejected" none reqApprovedW (by decide)
      (by decide)).2 [Op.patchRequest "hr@ex.com" 2 "rejected" none]⟩

/-- C4 counterexample: the claim "a return call by a non-owner fails with 403
regardless of the assignment's validity" is false at this input: returning an
already-returned assignment of another employee yields 400 `INVALID_STATE`
(the state check runs before the ownership check), not 403. -/
theorem c4_counterexample :
    returnAsset c4Store "hr@ex.com" 3 (some "hr@ex.com") =
      (.err 400 "Only assigned assets can be returned" "INVALID_STATE", c4Store) ∧
    (returnAsset c4Store "hr@ex.com" 3 (some "hr@ex.com")).1.httpStatus ≠ 403 := by
  constructor
  · decide
  · decide

/-- C4 amended: when the assignment exists and is still in `assigned` status
(and a body employeeEmail is supplied), a caller whose token email does not
match the assignment's `employeeEmail` gets 403 FORBIDDEN and no state
changes; a missing assignment yields 404 and an already-returned one 400
`INVALID_STATE`, both before the ownership check. -/
theorem c4_return_foreign_forbidden (s : Store) (tok : String) (gid : Nat)
    (bodyEmail : Option String) (g : AssignmentDoc)
    (hbody : strTruthy bodyEmail = true)
    (hfind : s.assignments.find? (fun x => x.id == gid) = some g)
    (hst : g.status = "assigned")
    (hown : g.employeeEmail ≠ tok) :
    returnAsset s tok gid bodyEmail =
      (.err 403 "You can only return your own assets" "FORBIDDEN", s) := by
  have hcond : tok ≠ bodyEmail.getD "" ∨ g.employeeEmail ≠ bodyEmail.getD "" := by
    by_cases he : tok = bodyEmail.getD ""
    · right
      rw [← he]
      exact hown
    · left
      exact he
  unfold returnAsset
  rw [hbody]
  dsimp only
  rw [if_neg (by simp), hfind]
  dsimp only
  rw [if_neg (not_not_intro hst), if_pos hcond]

theorem c4_return_foreign_forbidden_witness :
    returnAsset c4LiveStore "hr@ex.com" 3 (some "hr@ex.com") =
      (.err 403 "You can only return your own assets" "FORBIDDEN", c4LiveStore) :=
  c4_return_foreign_forbidden c4LiveStore "hr@ex.com" 3 (some "hr@ex.com") asgW (by decide)
    (by decide) (by decide) (by decide)

/-- C5 counterexample: approving is not restricted to an HR owning the
asset's company: an HR of a different company (and different email than the
asset's `hrEmail`) successfully approves the request — the call returns a
success response and the request becomes approved, instead of failing with an
authorization error. -/
theorem c5_counterexample :
    (patchRequest c5Store "hr2@other.com" 2 "approved" none).1.isOk = true ∧
    ((patchRequest c5Store "hr2@other.com" 2 "approved" none).2.requests.find?
      (fun r => r.id == 2)).map RequestDoc.status = some "approved" := by
  constructor
  · decide
  · decide

/-- C5 amended: the only authorization on `PATCH /requests/:requestId` is
`verifyHR` (the token must resolve to a stored user with role `hr`); no
ownership check against the asset or request is performed, so the outcome is
identical for any two HR callers. -/
theorem c5_any_hr_can_decide (s : Store) (t1 t2 : String) (rid : Nat) (st : String)
    (reason : Option String)
    (h1 : verifyHRCheck s t1 = none) (h2 : verifyHRCheck s t2 = none) :
    patchRequest s t1 rid st reason = patchRequest s t2 rid st reason := by
  unfold patchRequest
  rw [h1, h2]

theorem c5_any_hr_can_decide_witness :
    patchRequest c5Store "hr@ex.com" 2 "approved" none =
      patchRequest c5Store "hr2@other.com" 2 "approved" none :=
  c5_any_hr_can_decide c5Store "hr@ex.com" "hr2@other.com" 2 "approved" none (by decide)
    (by decide)

/-- C6, failing input evaluated: with a pending request, an available asset,
an HR below the limit and a leftover inactive affiliation for the same
(employee, company) pair, approval does not reactivate the affiliation — the
unconditional `insertOne` collides with the unique index on
(employeeEmail, companyName), the handler's catch turns the store error into
a 500 `SERVER_ERROR`, and nothing is created or updated. -/
theorem c6_inactive_affiliation_500 :
    patchRequest c6Store "hr@ex.com" 2 "approved" none =
      (.err 500 "E11000 duplicate key error" "SERVER_ERROR", c6Store) := by
  decide

/-- C7: an approval for a not-yet-affiliated employee by an HR whose
`packageLimit` is positive and exhausted (`currentEmployees ≥ packageLimit`)
fails with 403 `PACKAGE_LIMIT` and changes no stored state; with
`packageLimit = 0` (unlimited) the `PACKAGE_LIMIT` failure can never occur. -/
theorem c7_package_limit (s : Store) (tok : String) (rid : Nat) (reason : Option String)
    (req : RequestDoc) (asset : AssetDoc) (hrUser : UserDoc)
    (hhr : verifyHRCheck s tok = none)
    (hreq : s.requests.find? (fun r => r.id == rid) = some req)
    (hpend : req.status = "pending")
    (hasset : s.assets.find? (fun a => a.id == req.assetId) = some asset)
    (havail : 0 < asset.availableQuantity)
    (hhru : s.users.find? (fun u => u.email == req.hrEmail) = some hrUser)
    (hnoaff : s.affiliations.find? (fun f => f.employeeEmail == req.employeeEmail &&
      f.companyName == req.companyName && f.status == "active") = none) :
    (0 < hrUser.packageLimit → hrUser.packageLimit ≤ hrUser.currentEmployees →
      patchRequest s tok rid "approved" reason =
        (.err 403 "Package limit reached" "PACKAGE_LIMIT", s)) ∧
    (hrUser.packageLimit = 0 →
      (patchRequest s tok rid "approved" reason).1.errCode ≠ some "PACKAGE_LIMIT") := by
  have hred : patchRequest s tok rid "approved" reason = approveCore s rid req asset hrUser := by
    unfold patchRequest
    rw [hhr]
    dsimp only
    rw [if_neg (not_not_intro (Or.inl rfl)), hreq]
    dsimp only
    rw [if_neg (not_not_intro hpend), if_pos rfl, hasset]
    dsimp only
    rw [if_neg (by omega), hhru]
  rw [hred]
  constructor
  · intro hpl hce
    unfold approveCore
    dsimp only
    rw [hnoaff]
    rw [if_neg (by simp), if_pos ⟨hpl, hce⟩]
  · intro hpl0
    unfold approveCore
    dsimp only
    rw [hnoaff]
    rw [if_neg (by simp), if_neg (by omega)]
    split
    next e heq =>
      split at heq
      · obtain rfl := Sum.inl.inj heq
        show (some "SERVER_ERROR" : Option String) ≠ some "PACKAGE_LIMIT"
        decide
      · exact absurd heq (by simp)
    next s1 heq =>
      show (none : Option String) ≠ some "PACKAGE_LIMIT"
      decide

theorem c7_package_limit_witness :
    patchRequest c7Store "hr@ex.com" 2 "approved" none =
      (.err 403 "Package limit reached" "PACKAGE_LIMIT", c7Store) :=
  (c7_package_limit c7Store "hr@ex.com" 2 none reqW assetW hrLimW (by decide) (by decide)
    (by decide) (by decide) (by decide) (by decide) (by decide)).1 (by decide) (by decide)

/-- C8: creating a request requires the referenced asset to exist with
`availableQuantity > 0`, and is rejected with `DUPLICATE_REQUEST` whenever
the same employee already has a pending request for the same asset; as a
consequence, under any sequence of workflow operations from a store
satisfying the invariant, no employee ever holds two simultaneous pending
requests for one asset. -/
theorem c8_no_duplicate_pending (s : Store) (tok : String) (b : CreateRequestBody)
    (hfields : ¬(b.employeeEmail = "" ∨ b.employeeName = "" ∨ b.hrEmail = "" ∨
      b.companyName = ""))
    (htok : tok = b.employeeEmail)
    (hemails : isValidEmail b.employeeEmail = true ∧ isValidEmail b.hrEmail = true) :
    (s.assets.find? (fun a => a.id == b.assetId) = none →
      createRequest s tok b = (.err 404 "Asset not found" "ASSET_NOT_FOUND", s)) ∧
    (∀ asset, s.assets.find? (fun a => a.id == b.assetId) = some asset →
      asset.availableQuantity ≤ 0 →
      createRequest s tok b = (.err 400 "Asset not available" "NO_AVAILABLE_QUANTITY", s)) ∧
    (∀ asset, s.assets.find? (fun a => a.id == b.assetId) = some asset →
      0 < asset.availableQuantity →
      (s.requests.find? (fun r => r.assetId == b.assetId &&
        r.employeeEmail == b.employeeEmail && r.status == "pending")).isSome = true →
      createRequest s tok b =
        (.err 400 "Employee already has a pending request for this asset" "DUPLICATE_REQUEST",
          s)) ∧
    (∀ ops : List Op, StoreInv s → NoDupPending (runOps s ops)) := by
  have hstep : ∀ r : HttpResult RequestDoc × Store, createRequest s tok b = r ↔
      (if ¬(isValidEmail b.employeeEmail = true ∧ isValidEmail b.hrEmail = true) then
        ((.err 400 "Invalid email format" "INVALID_EMAIL", s) : HttpResult RequestDoc × Store)
      else match s.assets.find? (fun a => a.id == b.assetId) with
        | none => (.err 404 "Asset not found" "ASSET_NOT_FOUND", s)
        | some asset =>
          if asset.availableQuantity ≤ 0 then
            (.err 400 "Asset not available" "NO_AVAILABLE_QUANTITY", s)
          else if (s.requests.find? (fun r => r.assetId == b.assetId &&
              r.employeeEmail == b.employeeEmail && r.status == "pending")).isSome then
            (.err 400 "Employee already has a pending request for this asset"
              "DUPLICATE_REQUEST", s)
          else
            ((.ok 201 { id := s.nextId, assetId := b.assetId, assetName := orElseStr b.assetName asset.productName, assetImage := orElseStr b.assetImage asset.productImage, assetType := orElseStr b.assetType asset.productType, employeeEmail := b.employeeEmail, employeeName := sanitize b.employeeName, hrEmail := b.hrEmail, companyName := sanitize b.companyName, status := "pending", note := sanitize (b.note.getD ""), rejectionReason := "" }), { s with requests := s.requests ++ [{ id := s.nextId, assetId := b.assetId, assetName := orElseStr b.assetName asset.productName, assetImage := orElseStr b.assetImage asset.productImage, assetType := orElseStr b.assetType asset.productType, employeeEmail := b.employeeEmail, employeeName := sanitize b.employeeName, hrEmail := b.hrEmail, companyName := sanitize b.companyName, status := "pending", note := sanitize (b.note.getD ""), rejectionReason := "" }], nextId := s.nextId + 1 })) = r := by
    intro r
    unfold createRequest
    rw [if_neg hfields, if_neg (not_not_intro htok)]
  refine ⟨?_, ?_, ?_, ?_⟩
  · intro hnone
    rw [hstep]
    rw [if_neg (not_not_intro hemails), hnone]
  · intro asset hfind hle
    rw [hstep]
    rw [if_neg (not_not_intro hemails), hfind]
    dsimp only
    rw [if_pos hle]
  · intro asset hfind hgt hdup
    rw [hstep]
    rw [if_neg (not_not_intro hemails), hfind]
    dsimp only
    rw [if_neg (by omega), if_pos hdup]
  · intro ops hinv
    exact (storeInv_runOps s ops hinv).2.2

theorem c8_no_duplicate_pending_witness :
    createRequest c8Store "emp@ex.com" c8Body =
      (.err 400 "Employee already has a pending request for this asset" "DUPLICATE_REQUEST",
        c8Store) ∧
    NoDupPending (runOps c8Store []) :=
  ⟨(c8_no_duplicate_pending c8Store "emp@ex.com" c8Body (by decide) (by decide)
      ⟨by decide, by decide⟩).2.2.1 assetW (by decide) (by decide) (by decide),
   (c8_no_duplicate_pending c8Store "emp@ex.com" c8Body (by decide) (by decide)
      ⟨by decide, by decide⟩).2.2.2 [] (by decide)⟩

/-- C9: `GET /team-members` mounts no authentication middleware: whatever the
`Authorization` header (present or absent), the response is a 200 with the
user documents matching the optional `companyName` and `role` filters
(passwords removed) — never a 401. -/
theorem c9_team_members_no_auth (a1 a2 : Option String) (s : Store)
    (companyName role : Option String) :
    getTeamMembers a1 s companyName role = getTeamMembers a2 s companyName role ∧
    getTeamMembers a1 s companyName role =
      .ok 200 ((s.users.filter (teamMemberMatch companyName role)).map UserDoc.toResp) ∧
    (getTeamMembers a1 s companyName role).httpStatus = 200 :=
  ⟨rfl, rfl, rfl⟩

/-! ## Password indifference lemmas (claim C10) -/

theorem pwSim_fields {u v : UserDoc} (h : pwSim u v) :
    u.name = v.name ∧ u.email = v.email ∧ u.role = v.role ∧ u.companyName = v.companyName ∧
    u.currentEmployees = v.currentEmployees ∧ u.packageLimit = v.packageLimit :=
  ⟨congrArg UserResp.name h, congrArg UserResp.email h, congrArg UserResp.role h,
   congrArg UserResp.companyName h, congrArg UserResp.currentEmployees h,
   congrArg UserResp.packageLimit h⟩

theorem find?_pwEquiv {l1 l2 : List UserDoc} (h : UsersPwEquiv l1 l2) (p : UserDoc → Bool)
    (hp : ∀ u v, pwSim u v → p u = p v) :
    Option.map UserDoc.toResp (l1.find? p) = Option.map UserDoc.toResp (l2.find? p) ∧
    (l1.find? p).isSome = (l2.find? p).isSome := by
  induction h with
  | nil => exact ⟨rfl, rfl⟩
  | @cons a b l1' l2' h1 h2 ih =>
      by_cases hpa : p a = true
      · rw [List.find?_cons_of_pos _ hpa,
          List.find?_cons_of_pos _ (by rw [← hp a b h1]; exact hpa)]
        exact ⟨congrArg some h1, rfl⟩
      · have hpb : ¬p b = true := by
          rw [← hp a b h1]
          exact hpa
        rw [List.find?_cons_of_neg _ (by simpa using hpa),
          List.find?_cons_of_neg _ (by simpa using hpb)]
        exact ih

theorem filter_pwEquiv {l1 l2 : List UserDoc} (h : UsersPwEquiv l1 l2) (p : UserDoc → Bool)
    (hp : ∀ u v, pwSim u v → p u = p v) :
    UsersPwEquiv (l1.filter p) (l2.filter p) := by
  induction h with
  | nil => exact List.Forall₂.nil
  | @cons a b l1' l2' h1 h2 ih =>
      by_cases hpa : p a = true
      · rw [List.filter_cons_of_pos hpa,
          List.filter_cons_of_pos (by rw [← hp a b h1]; exact hpa)]
        exact List.Forall₂.cons h1 ih
      · rw [List.filter_cons_of_neg (by simpa using hpa),
          List.filter_cons_of_neg (by rw [← hp a b h1]; simpa using hpa)]
        exact ih

theorem map_toResp_pwEquiv {l1 l2 : List UserDoc} (h : UsersPwEquiv l1 l2) :
    l1.map UserDoc.toResp = l2.map UserDoc.toResp := by
  induction h with
  | nil => rfl
  | @cons a b l1' l2' h1 h2 ih =>
      simp only [List.map_cons]
      rw [ih]
      exact congrArg (fun x => x :: l2'.map UserDoc.toResp) h1

theorem updateFirst_pwEquiv {l1 l2 : List UserDoc} (h : UsersPwEquiv l1 l2) (p : UserDoc → Bool)
    (hp : ∀ u v, pwSim u v → p u = p v) (f : UserDoc → UserDoc)
    (hf : ∀ u v, pwSim u v → pwSim (f u) (f v)) :
    UsersPwEquiv (updateFirst p f l1) (updateFirst p f l2) := by
  induction h with
  | nil => exact List.Forall₂.nil
  | @cons a b l1' l2' h1 h2 ih =>
      simp only [updateFirst]
      by_cases hpa : p a = true
      · rw [if_pos hpa, if_pos (by rw [← hp a b h1]; exact hpa)]
        exact List.Forall₂.cons (hf a b h1) h2
      · rw [if_neg hpa, if_neg (by rw [← hp a b h1]; exact hpa)]
        exact List.Forall₂.cons h1 ih

theorem applyPutUser_pwSim (b : PutUserBody) {u v : UserDoc} (h : pwSim u v) :
    pwSim (applyPutUser b u) (applyPutUser b v) := by
  obtain ⟨hn, he, hr, hc, hce, hpl⟩ := pwSim_fields h
  unfold applyPutUser pwSim UserDoc.toResp
  by_cases h1 : strTruthy b.name = true <;> by_cases h2 : strTruthy b.companyName = true <;>
    cases b.currentEmployees <;> simp [h1, h2, hn, he, hr, hc, hce, hpl]

theorem getUser_pwEquiv (s1 s2 : Store) (h : StorePwEquiv s1 s2) (e : String) :
    getUser s1 e = getUser s2 e := by
  unfold getUser
  dsimp only
  split
  · rfl
  obtain ⟨hmap, hsome⟩ := find?_pwEquiv h.1 (fun u => u.email == sanitize e)
    (fun u v hs => by simp only [(pwSim_fields hs).2.1])
  cases h1 : s1.users.find? (fun u => u.email == sanitize e) with
  | none =>
      cases h2 : s2.users.find? (fun u => u.email == sanitize e) with
      | none => rfl
      | some v =>
          rw [h1, h2] at hsome
          simp at hsome
  | some u =>
      cases h2 : s2.users.find? (fun u => u.email == sanitize e) with
      | none =>
          rw [h1, h2] at hsome
          simp at hsome
      | some v =>
          rw [h1, h2] at hmap
          exact congrArg (fun x => HttpResult.ok 200 x) (Option.some.inj hmap)

theorem getUsersByEmails_pwEquiv (s1 s2 : Store) (h : StorePwEquiv s1 s2) (q : Option String) :
    getUsersByEmails s1 q = getUsersByEmails s2 q := by
  unfold getUsersByEmails
  dsimp only
  split
  · rfl
  split
  · rfl
  exact congrArg (fun l => HttpResult.ok 200 l)
    (map_toResp_pwEquiv (filter_pwEquiv h.1 _ (fun u v hs => by simp only [(pwSim_fields hs).2.1])))

theorem postUsers_pwEquiv (s1 s2 : Store) (h : StorePwEquiv s1 s2) (b : CreateUserBody) :
    (postUsers s1 b).1 = (postUsers s2 b).1 := by
  unfold postUsers
  dsimp only
  split
  · rfl
  split
  · rfl
  split
  · rfl
  split
  · rfl
  obtain ⟨hmap, hsome⟩ := find?_pwEquiv h.1 (fun u => u.email == b.email)
    (fun u v hs => by simp only [(pwSim_fields hs).2.1])
  cases h1 : s1.users.find? (fun u => u.email == b.email) with
  | none =>
      cases h2 : s2.users.find? (fun u => u.email == b.email) with
      | none => rw [h.2.2.2.2.2]
      | some v =>
          rw [h1, h2] at hsome
          simp at hsome
  | some u =>
      cases h2 : s2.users.find? (fun u => u.email == b.email) with
      | none =>
          rw [h1, h2] at hsome
          simp at hsome
      | some v => rfl

theorem putUser_pwEquiv (s1 s2 : Store) (h : StorePwEquiv s1 s2) (tok e : String)
    (b : PutUserBody) : (putUser s1 tok e b).1 = (putUser s2 tok e b).1 := by
  have hp : ∀ u v : UserDoc, pwSim u v →
      (u.email == sanitize e) = (v.email == sanitize e) :=
    fun u v hs => by simp only [(pwSim_fields hs).2.1]
  unfold putUser
  dsimp only
  split
  · rfl
  split
  · rfl
  obtain ⟨hmap, hsome⟩ := find?_pwEquiv h.1 (fun u => u.email == sanitize e) hp
  have hequpd := updateFirst_pwEquiv h.1 (fun u => u.email == sanitize e) hp (applyPutUser b)
    (fun _ _ hs => applyPutUser_pwSim b hs)
  obtain ⟨hmap2, _⟩ := find?_pwEquiv hequpd (fun u => u.email == sanitize e) hp
  cases h1 : s1.users.find? (fun u => u.email == sanitize e) with
  | none =>
      cases h2 : s2.users.find? (fun u => u.email == sanitize e) with
      | none => rfl
      | some v =>
          rw [h1, h2] at hsome
          simp at hsome
  | some u =>
      cases h2 : s2.users.find? (fun u => u.email == sanitize e) with
      | none =>
          rw [h1, h2] at hsome
          simp at hsome
      | some v => exact congrArg (fun o => HttpResult.ok 200 o) hmap2

theorem getTeamMembers_pwEquiv (s1 s2 : Store) (h : StorePwEquiv s1 s2)
    (a cn role : Option String) : getTeamMembers a s1 cn role = getTeamMembers a s2 cn role := by
  unfold getTeamMembers
  refine congrArg (fun l => HttpResult.ok 200 l)
    (map_toResp_pwEquiv (filter_pwEquiv h.1 _ (fun u v hs => ?_)))
  obtain ⟨hn, he, hr, hc, hce, hpl⟩ := pwSim_fields hs
  simp only [teamMemberMatch, hc, hr]

/-- C10: no user-returning endpoint ever includes the stored password in its
response: for any two stores that differ only in users' password values, the
responses of `GET /user/:email`, `GET /users-by-emails`, `PUT /users/:email`,
`POST /users` and `GET /team-members` are identical. -/
theorem c10_password_never_leaks (s1 s2 : Store) (h : StorePwEquiv s1 s2) :
    (∀ e, getUser s1 e = getUser s2 e) ∧
    (∀ q, getUsersByEmails s1 q = getUsersByEmails s2 q) ∧
    (∀ tok e b, (putUser s1 tok e b).1 = (putUser s2 tok e b).1) ∧
    (∀ b, (postUsers s1 b).1 = (postUsers s2 b).1) ∧
    (∀ a cn role, getTeamMembers a s1 cn role = getTeamMembers a s2 cn role) :=
  ⟨getUser_pwEquiv s1 s2 h, getUsersByEmails_pwEquiv s1 s2 h,
   putUser_pwEquiv s1 s2 h, postUsers_pwEquiv s1 s2 h, getTeamMembers_pwEquiv s1 s2 h⟩

theorem c10_password_never_leaks_witness :
    StorePwEquiv c10StoreA c10StoreB ∧
    getUser c10StoreA "emp@ex.com" = getUser c10StoreB "emp@ex.com" := by
  have hequiv : StorePwEquiv c10StoreA c10StoreB :=
    ⟨List.Forall₂.cons rfl (List.Forall₂.cons rfl List.Forall₂.nil), rfl, rfl, rfl, rfl, rfl⟩
  exact ⟨hequiv, (c10_password_never_leaks c10StoreA c10StoreB hequiv).1 "emp@ex.com"⟩

end AssetVerse
